import Mathlib

/-!
# Verification of the school-bus route optimizer (`route_optimizer.py`)

Shallow embedding of the routing engine: geo primitives, the polyline
decoder, the distance-matrix builder, the cluster analyzer, the CVRP
solve wrapper and the orchestrator `optimize_routes`.

Modelling conventions:
* Python floats are modelled as exact rationals (`ℚ`); the haversine
  formula, which needs transcendental functions, is modelled over `ℝ`.
  Components that merely *consume* distances take the distance function
  as an explicit parameter `hd`, so theorems quantify over it.
* Third-party library calls are oracles passed as parameters:
  `dbscan` (sklearn's DBSCAN label vector), `solver` (OR-Tools: per
  vehicle, an ordered list of 0-based student indices, or `none` when no
  solution is found), `onemap` (the routing API adapter including its
  internal fallback: it returns `(km, seconds, geometry)` and never
  fails).  Every invocation of the `onemap` adapter is recorded in a
  call log that the embedded functions return alongside their result.
* Python dicts whose key set varies between branches are modelled as
  structures with `Option` fields; a `d['k']` subscript on a possibly
  missing key is an explicit `KeyError` in an `Except`, while
  `d.get('k', v)` is `Option.getD`.
* Python's `int()` conversion truncates toward zero (`pyInt` below);
  `round(x)` rounds halves away from even in banker's style — we model
  it with `round` (half-up), which agrees except exactly at `.5`
  boundaries, never exercised by any statement below.
* f-string log/recommendation texts are abstracted to fixed strings:
  no claim refers to their contents.
-/

/-- Python's `int()` on a float: truncation toward zero. -/
def pyInt {K : Type} [LinearOrderedField K] [FloorRing K] (x : K) : ℤ :=
  if x < 0 then ⌈x⌉ else ⌊x⌋

/-- Python's `round(x, 2)`. -/
def round2 {K : Type} [LinearOrderedField K] [FloorRing K] (x : K) : K :=
  ((round (x * 100) : ℤ) : K) / 100

/-- Python's `round(x, 1)`. -/
def round1 {K : Type} [LinearOrderedField K] [FloorRing K] (x : K) : K :=
  ((round (x * 10) : ℤ) : K) / 10

/-- `math.radians`: degrees to radians. -/
noncomputable def radians (x : ℝ) : ℝ := x * Real.pi / 180

/-- `haversine_distance`: great-circle distance in km, Earth radius 6371 km. -/
noncomputable def haversine_distance (lat1 lon1 lat2 lon2 : ℝ) : ℝ :=
  let R : ℝ := 6371
  let lat1_rad := radians lat1
  let lat2_rad := radians lat2
  let delta_lat := radians (lat2 - lat1)
  let delta_lon := radians (lon2 - lon1)
  let a := Real.sin (delta_lat / 2) ^ 2 +
    Real.cos lat1_rad * Real.cos lat2_rad * Real.sin (delta_lon / 2) ^ 2
  let c := 2 * Real.arcsin (Real.sqrt a)
  R * c

/-- `estimate_travel_time`: seconds at an average speed of 30 km/h. -/
def estimate_travel_time {K : Type} [LinearOrderedField K] (distance_km : K) : K :=
  distance_km / 30 * 3600

/-! ## Polyline decoder

`decode_polyline` walks the encoded string by index; running off the end
raises an `IndexError` that the surrounding `try` turns into `[]`.  The
inner 5-bit-chunk loop is `readVarint` (consumes at least one character
per call, `none` = `IndexError`); the outer while-loop is `decodeLoop`,
written with explicit fuel so that its termination bound is a theorem
rather than a by-construction artifact. -/

/-- One varint read: `b = ord(c) - 63`, low 5 bits accumulated with
`result |= (b & 0x1f) << shift`, stop when `b < 0x20`.
Python's `&` on a (possibly negative) int with mask `0x1f` is `emod 32`. -/
def readVarint : List Char → Nat → Nat → Option (Nat × List Char)
  | [], _, _ => none
  | c :: rest, result, shift =>
    let b : Int := (c.toNat : Int) - 63
    let result' := result ||| ((b.emod 32).toNat <<< shift)
    if b < 32 then some (result', rest)
    else readVarint rest result' (shift + 5)

/-- Zig-zag step: `~(r >> 1) if r & 1 else r >> 1` (`~x = -x - 1`). -/
def zigzag (r : Nat) : Int :=
  if r % 2 = 1 then -((r >>> 1 : Nat) : Int) - 1 else ((r >>> 1 : Nat) : Int)

/-- The outer decoding loop, with fuel.  Each iteration decodes one
latitude varint and one longitude varint, accumulates them, and appends
`(lat / 1e5, lng / 1e5)`. -/
def decodeLoop : Nat → Int → Int → List Char → Option (List (ℚ × ℚ))
  | _, _, _, [] => some []
  | 0, _, _, _ :: _ => none
  | fuel + 1, lat, lng, s =>
    match readVarint s 0 0 with
    | none => none
    | some (r1, s1) =>
      let lat' := lat + zigzag r1
      match readVarint s1 0 0 with
      | none => none
      | some (r2, s2) =>
        let lng' := lng + zigzag r2
        match decodeLoop fuel lat' lng' s2 with
        | none => none
        | some coords => some (((lat' : ℚ) / 100000, (lng' : ℚ) / 100000) :: coords)

/-- `decode_polyline`: the `try` body, with any exception mapped to `[]`. -/
def decode_polyline (encoded : String) : List (ℚ × ℚ) :=
  (decodeLoop encoded.toList.length 0 0 encoded.toList).getD []

/-! ## Distance matrix -/

/-- `build_distance_matrix_fast`, as a function of the two indices.  The
imperative fill initializes everything to `0`, then for each `i < j`
stores `int(hd(points i, points j) * 1.3 * 1000)` at both `(i, j)` and
`(j, i)`. Generic in the scalar field so it can be read back at `ℝ`
with the real haversine function. -/
def build_distance_matrix_fast {K : Type} [LinearOrderedField K] [FloorRing K]
    (hd : K → K → K → K → K) (school : K × K) (students : List (K × K)) :
    Nat → Nat → ℤ :=
  fun i j =>
    let points := school :: students
    let pi' := points.getD i (0, 0)
    let pj := points.getD j (0, 0)
    if i = j then 0
    else if i < j then pyInt (hd pi'.1 pi'.2 pj.1 pj.2 * (13 / 10) * 1000)
    else pyInt (hd pj.1 pj.2 pi'.1 pi'.2 * (13 / 10) * 1000)

/-! ## Data model

The orchestrator's student/school dicts, over exact rationals. -/

structure Student where
  id : Nat
  name : String
  address : String
  latitude : ℚ
  longitude : ℚ
deriving DecidableEq

structure School where
  latitude : ℚ
  longitude : ℚ
deriving DecidableEq

/-- Default used for (unreachable, contract-guarded) list indexing. -/
def defaultStudent : Student := ⟨0, "", "", 0, 0⟩

/-- A distance function standing for `haversine_distance` on floats;
theorems quantify over it (float values are rationals). -/
def HdFn : Type := ℚ → ℚ → ℚ → ℚ → ℚ

/-- DBSCAN oracle: the `labels_` vector (`-1` = noise). -/
def DbscanFn : Type := List Student → List Int

/-- OR-Tools oracle: for `(school, students, num_vehicles)` either no
solution, or per vehicle the ordered list of visited students given as
0-based indices into the student list (node `k` of the model is student
`k - 1`; empty vehicles are empty lists). -/
def SolverFn : Type := School → List Student → Nat → Option (List (List Nat))

/-- Routing-client adapter oracle (`get_route_from_onemap` incl. its
fallback): `(from_lat, from_lng, to_lat, to_lng) ↦ (km, seconds, geometry)`. -/
def OnemapFn : Type := ℚ → ℚ → ℚ → ℚ → ℚ × ℚ × List (ℚ × ℚ)

/-- A recorded adapter invocation: `(from_lat, from_lng, to_lat, to_lng)`. -/
def Call : Type := ℚ × ℚ × ℚ × ℚ

/-! ## Cluster analyzer -/

structure ClusterInfo where
  id : Int
  size : Nat
  centerLat : ℚ
  centerLng : ℚ
  distance_from_school : ℚ
  spread : ℚ
  students : List Student
deriving DecidableEq

structure VizCluster where
  id : Int
  centerLat : ℚ
  centerLng : ℚ
  radius : ℚ
  size : Nat
  distance_from_school : ℚ
deriving DecidableEq

structure VizIsolated where
  name : String
  lat : ℚ
  lng : ℚ
  address : String
deriving DecidableEq

structure Visualization where
  clusters : List VizCluster
  isolated : List VizIsolated
deriving DecidableEq

instance : Inhabited Visualization := ⟨⟨[], []⟩⟩

/-- The dict returned by `analyze_student_clusters`; its key set differs
between the trivial (`< 2` students) branch and the full branch, hence
the `Option` fields. -/
structure ClusterAnalysisDict where
  clusters : Option Nat := none
  recommendation : Option String := none
  n_clusters : Option Nat := none
  n_noise : Option Nat := none
  cluster_info : Option (List ClusterInfo) := none
  isolated_students : Option (List Student) := none
  avg_cluster_distance : Option ℚ := none
  recommended_buses : Option Nat := none
  min_buses : Option Nat := none
  visualization : Option Visualization := none

/-- Unordered pairs in the order produced by `for i: for j in range(i+1, n)`. -/
def pairsOf {α : Type} : List α → List (α × α)
  | [] => []
  | x :: xs => xs.map (fun y => (x, y)) ++ pairsOf xs

/-- `math.ceil(n / 40)` for a natural `n` (the division is exact on floats
in the sizes at hand). -/
def ceil40 (n : Nat) : Nat := (n + 39) / 40

/-- `np.mean`, guarded by the caller (`if cluster_distances else 0`). -/
def listMean (l : List ℚ) : ℚ :=
  if l = [] then 0 else l.sum / (l.length : ℚ)

/-- Per-cluster record computed for one DBSCAN label. -/
def mkClusterInfo (hd : HdFn) (school : School) (labeled : List (Int × Student))
    (cid : Int) : ClusterInfo :=
  let members := (labeled.filter (fun p => p.1 = cid)).map (·.2)
  let centerLat := (members.map (·.latitude)).sum / (members.length : ℚ)
  let centerLng := (members.map (·.longitude)).sum / (members.length : ℚ)
  let dist_from_school := hd school.latitude school.longitude centerLat centerLng
  let spread := ((pairsOf members).map
    (fun p => hd p.1.latitude p.1.longitude p.2.latitude p.2.longitude)).foldl max 0
  ⟨cid, members.length, centerLat, centerLng, dist_from_school, spread, members⟩

/-- `analyze_student_clusters`.  `dbscan` is the sklearn oracle; all other
computation is embedded from the source. -/
def analyze_student_clusters (hd : HdFn) (dbscan : DbscanFn)
    (students : List Student) (school : School) : ClusterAnalysisDict :=
  if students.length < 2 then
    { clusters := some 1, recommendation := some "Use 1 bus for few students" }
  else
    let labels := dbscan students
    let n_clusters := labels.dedup.length - (if (-1 : Int) ∈ labels then 1 else 0)
    let n_noise := labels.count (-1)
    let labeled := labels.zip students
    let isolated_students := (labeled.filter (fun p => p.1 = -1)).map (·.2)
    let clusterIds := labels.dedup.filter (fun l => l ≠ -1)
    let cluster_info := clusterIds.map (mkClusterInfo hd school labeled)
    let cluster_distances := (pairsOf cluster_info).map
      (fun p => hd p.1.centerLat p.1.centerLng p.2.centerLat p.2.centerLng)
    let avg_cluster_distance := listMean cluster_distances
    let rec_ : Nat × Nat × String :=
      if n_clusters = 0 then
        (max 1 (ceil40 students.length), max 1 (ceil40 students.length), "spread out")
      else if n_clusters = 1 then
        (max 1 (ceil40 students.length), 1, "one dense cluster")
      else if 7 < avg_cluster_distance then
        let b := (cluster_info.map (fun c => max 1 (ceil40 c.size))).sum +
          (if 0 < n_noise then ceil40 n_noise else 0)
        (b, b, "clusters far apart")
      else
        (max 1 (ceil40 students.length), 1, "clusters close")
    { clusters := none
      recommendation := some rec_.2.2
      n_clusters := some n_clusters
      n_noise := some n_noise
      cluster_info := some cluster_info
      isolated_students := some isolated_students
      avg_cluster_distance := some avg_cluster_distance
      recommended_buses := some rec_.1
      min_buses := some rec_.2.1
      visualization := some
        { clusters := cluster_info.map (fun c =>
            ⟨c.id, c.centerLat, c.centerLng, max 500 (c.spread / 2 * 1000),
             c.size, c.distance_from_school⟩)
          isolated := isolated_students.map (fun s =>
            ⟨s.name, s.latitude, s.longitude, s.address⟩) } }

/-! ## CVRP solve wrapper (`solve_cvrp`)

OR-Tools (model construction, callbacks, 30 s search) is the `solver`
oracle; everything downstream of `routing.SolveWithParameters` — route
extraction, per-route enrichment through the OneMap adapter, totals —
is embedded here.  The matrix-based per-segment accumulators
`route_distance`/`route_time` computed during extraction are dead
locals in the source (the appended route carries the enriched values);
the matrix-based accounting is modelled separately by
`matrixRouteDistance`/`matrixRouteTime` below for comparison. -/

structure Segment where
  fromLat : ℚ
  fromLng : ℚ
  toLat : ℚ
  toLng : ℚ
  student : String
  distance : ℚ := 0
  time : ℚ := 0
  geometry : List (ℚ × ℚ) := []
deriving DecidableEq

structure Route where
  students : List Student
  distance_km : ℚ
  time_seconds : ℤ
  time_minutes : ℚ
  student_count : Nat
  segments : List Segment
deriving DecidableEq

/-- The dict returned by `solve_cvrp` (`error` key present only on
failure; `max_route_time`/`num_buses` keys absent in the empty-students
early return). -/
structure CvrpDict where
  error : Option String := none
  routes : List Route := []
  total_distance : ℚ := 0
  max_route_time : Option ℚ := none
  num_buses : Option Nat := none

/-- Raw (un-enriched) segments of one tour: school → first student,
consecutive pickups, last student → school. -/
def segsAux (school : School) (students : List Student) :
    ℚ × ℚ → List Nat → List Segment
  | (plat, plng), [] =>
    [{ fromLat := plat, fromLng := plng, toLat := school.latitude,
       toLng := school.longitude, student := "Return to School" }]
  | (plat, plng), i :: rest =>
    let st := students.getD i defaultStudent
    { fromLat := plat, fromLng := plng, toLat := st.latitude,
      toLng := st.longitude, student := st.name } ::
      segsAux school students (st.latitude, st.longitude) rest

def routeSegments (school : School) (students : List Student)
    (tour : List Nat) : List Segment :=
  segsAux school students (school.latitude, school.longitude) tour

/-- `get_real_route_geometry_for_segments`: one adapter call per
segment, overwriting `geometry`, `distance`, `time`; also returns the
calls made. -/
def get_real_route_geometry_for_segments (onemap : OnemapFn)
    (route_segments : List Segment) : List Segment × List Call :=
  (route_segments.map (fun s =>
      let r := onemap s.fromLat s.fromLng s.toLat s.toLng
      { s with distance := r.1, time := r.2.1, geometry := r.2.2 }),
   route_segments.map (fun s => (s.fromLat, s.fromLng, s.toLat, s.toLng)))

/-- One extracted route (nonempty tour): students in visit order,
enriched segments, totals recomputed from the enriched values plus 60 s
pickup dwell per student. -/
structure BuiltRoute where
  route : Route
  rawDistance : ℚ
  rawTime : ℚ
  calls : List Call

def buildRoute (onemap : OnemapFn) (school : School)
    (students : List Student) (tour : List Nat) : BuiltRoute :=
  let route_students := tour.map (fun i => students.getD i defaultStudent)
  let er := get_real_route_geometry_for_segments onemap
    (routeSegments school students tour)
  let real_distance := (er.1.map (·.distance)).sum
  let real_time := (er.1.map (·.time)).sum + (route_students.length : ℚ) * 60
  { route :=
      { students := route_students
        distance_km := round2 real_distance
        time_seconds := round real_time
        time_minutes := round1 (real_time / 60)
        student_count := route_students.length
        segments := er.1 }
    rawDistance := real_distance
    rawTime := real_time
    calls := er.2 }

/-- `solve_cvrp`. -/
def solve_cvrp (onemap : OnemapFn) (solver : SolverFn) (school : School)
    (students : List Student) (num_vehicles : Nat) : CvrpDict × List Call :=
  match students with
  | [] => ({ error := none, routes := [], total_distance := 0 }, [])
  | _ :: _ =>
    match solver school students num_vehicles with
    | none => ({ error := some "No solution found" }, [])
    | some tours =>
      let built := (tours.filter (fun t => !t.isEmpty)).map
        (buildRoute onemap school students)
      ({ error := none
         routes := built.map (·.route)
         total_distance := (built.map (·.rawDistance)).sum
         max_route_time := some ((built.map (·.rawTime)).foldl max 0)
         num_buses := some built.length },
       (built.map (·.calls)).flatten)

/-- Matrix-based distance of a tour, as §4.5 of the spec describes the
per-route accounting: for each consecutive pair read km from the
distance matrix.  (Spec-side description, for comparison with the
code's enriched totals.) -/
def matrixRouteDistance (hd : HdFn) (school : School)
    (students : List Student) (tour : List Nat) : ℚ :=
  let dm := build_distance_matrix_fast hd (school.latitude, school.longitude)
    (students.map (fun s => (s.latitude, s.longitude)))
  let nodes := tour.map (· + 1)
  let hops := (List.zip (0 :: nodes) (nodes ++ [0])).map
    (fun p => ((dm p.1 p.2 : ℚ) / 1000))
  hops.sum

/-- Matrix-based time of a tour per §4.5: seconds at 30 km/h per hop
plus 60 s dwell per student visited. -/
def matrixRouteTime (hd : HdFn) (school : School)
    (students : List Student) (tour : List Nat) : ℚ :=
  let dm := build_distance_matrix_fast hd (school.latitude, school.longitude)
    (students.map (fun s => (s.latitude, s.longitude)))
  let nodes := tour.map (· + 1)
  let hops := (List.zip (0 :: nodes) (nodes ++ [0])).map
    (fun p => estimate_travel_time ((dm p.1 p.2 : ℚ) / 1000))
  hops.sum + (tour.length : ℚ) * 60

/-! ## Orchestrator (`optimize_routes`) -/

/-- The plan dict returned to the caller (`Option` fields = keys absent
on some paths). -/
structure PlanDict where
  routes : List Route := []
  total_buses : Nat := 0
  max_route_time_minutes : Option ℚ := none
  total_distance_km : Option ℚ := none
  optimization_note : Option String := none
  error : Option String := none
  cluster_visualization : Option Visualization := none

/-- One recorded fleet-size candidate of the sweep. -/
structure Cand where
  num_buses : Nat
  routes : List Route
  max_time : ℚ
  total_distance : ℚ
deriving DecidableEq

/-- Uncaught Python exception. -/
inductive PyErr where
  | keyError (key : String)
deriving DecidableEq

/-- Python's `min` over a nonempty list (first minimizer wins). -/
def listMinQ : List ℚ → ℚ
  | [] => 0
  | x :: xs => xs.foldl min x

/-- Python's `min(l, key=f)`: first element attaining the minimum. -/
def argminFirst {α : Type} (f : α → ℚ) : List α → Option α
  | [] => none
  | x :: xs => some (xs.foldl (fun b y => if f y < f b then y else b) x)

/-- Index of the cluster whose centroid is nearest to `s` (strict
improvement scan starting from `inf`, i.e. the first minimizer). -/
def nearestClusterIdx (hd : HdFn) (cinfo : List ClusterInfo) (s : Student) : Nat :=
  ((cinfo.enum.foldl (fun best p =>
      let d := hd s.latitude s.longitude p.2.centerLat p.2.centerLng
      match best with
      | none => some (d, p.1)
      | some bd => if d < bd.1 then some (d, p.1) else some bd)
    none).map (·.2)).getD 0

/-- In-place update of the element at an index (Python
`lst[idx] = ...`); out-of-range indices leave the list unchanged (the
orchestrator only reaches this with a valid index). -/
def listModify {α : Type} (f : α → α) : Nat → List α → List α
  | _, [] => []
  | 0, c :: cs => f c :: cs
  | n + 1, c :: cs => c :: listModify f n cs

/-- FAR_APART preparation: append every isolated student to the
`students` list of its nearest cluster (in order). -/
def attachIsolated (hd : HdFn) (cinfo : List ClusterInfo)
    (isolated : List Student) : List ClusterInfo :=
  isolated.foldl (fun ci s =>
    listModify (fun c => { c with students := c.students ++ [s] })
      (nearestClusterIdx hd ci s) ci) cinfo

/-- Accumulator of the FAR_APART per-cluster loop. -/
structure FarAcc where
  all_routes : List Route := []
  total_distance : ℚ := 0
  max_route_time : ℚ := 0
  calls : List Call := []

/-- One iteration of the FAR_APART per-cluster loop: solve the cluster
with `max(1, ceil(|c| / 40))` buses; keep the routes when the solve
returned routes; adapter calls accumulate regardless. -/
def farStep (onemap : OnemapFn) (solver : SolverFn) (school : School)
    (acc : FarAcc) (c : ClusterInfo) : FarAcc :=
  let cluster_students := c.students
  let buses_for_cluster := max 1 (ceil40 cluster_students.length)
  let r := solve_cvrp onemap solver school cluster_students buses_for_cluster
  match r.1.error, r.1.routes with
  | none, _ :: _ =>
    { all_routes := acc.all_routes ++ r.1.routes
      total_distance := acc.total_distance + r.1.total_distance
      max_route_time := max acc.max_route_time (r.1.max_route_time.getD 0)
      calls := acc.calls ++ r.2 }
  | _, _ => { acc with calls := acc.calls ++ r.2 }

/-- The FAR_APART per-cluster loop. -/
def farBranch (onemap : OnemapFn) (solver : SolverFn) (school : School)
    (cinfo : List ClusterInfo) : FarAcc :=
  cinfo.foldl (farStep onemap solver school) {}

/-- One sweep attempt: record a candidate when the solve produced routes. -/
def tryBuses (onemap : OnemapFn) (solver : SolverFn) (school : School)
    (students : List Student) (k : Nat) : Option Cand × List Call :=
  let r := solve_cvrp onemap solver school students k
  (match r.1.error, r.1.routes with
   | none, _ :: _ =>
     some { num_buses := r.1.num_buses.getD 0
            routes := r.1.routes
            max_time := r.1.max_route_time.getD 0
            total_distance := r.1.total_distance }
   | _, _ => none, r.2)

/-- The selection over recorded candidates (source lines 606–644):
speed mode when the best max-route-time exceeds 1800 s, otherwise the
first candidate, in a stable sort by bus count, within 15 % of the best
time; the final fallback mirrors the (unreachable) source fallback. -/
def pickBest (results : List Cand) (viz : Visualization) : PlanDict :=
  let min_time := listMinQ (results.map (·.max_time))
  if 1800 < min_time then
    match argminFirst (·.max_time) results with
    | none => { error := some "Could not create routes" }
    | some best =>
      { routes := best.routes
        total_buses := best.num_buses
        max_route_time_minutes := some (round1 (best.max_time / 60))
        total_distance_km := some (round2 best.total_distance)
        optimization_note := some "prioritizing speed"
        cluster_visualization := some viz }
  else
    let threshold := min_time * (23 / 20)
    let results_sorted := results.mergeSort (fun a b => a.num_buses ≤ b.num_buses)
    match results_sorted.find? (fun r => r.max_time ≤ threshold) with
    | some r =>
      { routes := r.routes
        total_buses := r.num_buses
        max_route_time_minutes := some (round1 (r.max_time / 60))
        total_distance_km := some (round2 r.total_distance)
        optimization_note := some "optimal balance"
        cluster_visualization := some viz }
    | none =>
      match argminFirst (·.max_time) results with
      | none => { error := some "Could not create routes" }
      | some best =>
        { routes := best.routes
          total_buses := best.num_buses
          max_route_time_minutes := some (round1 (best.max_time / 60))
          total_distance_km := some (round2 best.total_distance)
          cluster_visualization := some viz }

/-- STEP 3, the fleet-size sweep: try 1 bus, then
`range(2, min(max_buses, recommended_buses) + 1)` when
`recommended_buses > 1`; error plan when no attempt produced routes. -/
def sweepPhase (onemap : OnemapFn) (solver : SolverFn) (school : School)
    (students : List Student) (recommended_buses max_buses : Nat)
    (viz : Visualization) : PlanDict × List Call :=
  let first := tryBuses onemap solver school students 1
  let ks := if 1 < recommended_buses then
    List.range' 2 (min max_buses recommended_buses - 1) else []
  let rest := ks.map (tryBuses onemap solver school students)
  let results := ((first :: rest).map (·.1)).reduceOption
  let calls := ((first :: rest).map (·.2)).flatten
  match results with
  | [] =>
    ({ error := some "Could not create routes",
       cluster_visualization := some viz }, calls)
  | _ :: _ =>
    (pickBest results viz, calls)

/-- `optimize_routes`.  The result is `Except` because the single-student
path raises an uncaught `KeyError` (see `analyze_student_clusters`'s
trivial branch, which returns a dict without `recommended_buses`). -/
def optimize_routes (hd : HdFn) (onemap : OnemapFn) (solver : SolverFn)
    (dbscan : DbscanFn) (school? : Option School) (students : List Student)
    (max_buses : Nat) : Except PyErr PlanDict × List Call :=
  match school? with
  | none =>
    (.ok { error := some "School location or students not set" }, [])
  | some school =>
    match students with
    | [] => (.ok { error := some "School location or students not set" }, [])
    | _ :: _ =>
      let cluster_analysis := analyze_student_clusters hd dbscan students school
      match cluster_analysis.recommended_buses with
      | none => (.error (.keyError "recommended_buses"), [])
      | some recommended_buses =>
        let viz := cluster_analysis.visualization.getD default
        let avg_cluster_distance := cluster_analysis.avg_cluster_distance.getD 0
        let n_clusters := cluster_analysis.n_clusters.getD 0
        let cluster_info := cluster_analysis.cluster_info.getD []
        let isolated_students := cluster_analysis.isolated_students.getD []
        if 7 < avg_cluster_distance ∧ 1 < n_clusters then
          let cinfo := attachIsolated hd cluster_info isolated_students
          let far := farBranch onemap solver school cinfo
          match far.all_routes with
          | _ :: _ =>
            (.ok { routes := far.all_routes
                   total_buses := far.all_routes.length
                   max_route_time_minutes := some (round1 (far.max_route_time / 60))
                   total_distance_km := some (round2 far.total_distance)
                   optimization_note := some "cluster-based routing"
                   cluster_visualization := some viz }, far.calls)
          | [] =>
            let sw := sweepPhase onemap solver school students
              recommended_buses max_buses viz
            (.ok sw.1, far.calls ++ sw.2)
        else
          let sw := sweepPhase onemap solver school students
            recommended_buses max_buses viz
          (.ok sw.1, sw.2)

/-! ## Concrete scenario used by witnesses and counterexamples

Two tight clusters of three students each on one meridian, about 12 km
apart, with a flat-earth distance oracle (1 degree of latitude maps to
111 km, consistent with haversine on a meridian) and a DBSCAN oracle
labelling them `[0, 0, 0, 1, 1, 1]` (consistent with eps = 0.03 deg,
minPts = 3 on these coordinates). -/

def mkStu (i : Nat) (la : ℚ) : Student := ⟨i, "", "", la, 0⟩

def stu6 : List Student :=
  [mkStu 1 0, mkStu 2 (1 / 1000), mkStu 3 (2 / 1000),
   mkStu 4 (11 / 100), mkStu 5 (111 / 1000), mkStu 6 (112 / 1000)]

def sch0 : School := ⟨0, 0⟩

def hdLat : HdFn := fun la1 _ la2 _ => (la2 - la1) * 111

def db6 : DbscanFn := fun ss => if ss.length = 6 then [0, 0, 0, 1, 1, 1] else []

/-- Adapter oracle answering 0.5 km / 100 s for every segment. -/
def om1 : OnemapFn := fun _ _ _ _ => (1 / 2, 100, [])

/-- Solver oracle that solves the first cluster (its head is student 1)
and times out on everything else. -/
def solvA : SolverFn := fun _ ss _ =>
  if (ss.headD defaultStudent).id = 1 then some [[0, 1, 2]] else none

/-- Solver oracle that times out on the 3-student per-cluster solves but
solves the full 6-student instance, with one tour for fleet 1 and two
tours otherwise. -/
def solvB : SolverFn := fun _ ss k =>
  if ss.length = 6 then
    (if k = 1 then some [[0, 1, 2, 3, 4, 5]] else some [[0, 1, 2], [3, 4, 5]])
  else none

/-- A route value used in concrete candidate lists. -/
def route0 : Route := ⟨[], 0, 0, 0, 0, []⟩

/-- A total solver oracle: one tour visiting every student in index
order. -/
def solvT : SolverFn := fun _ ss _ => some [List.range ss.length]


/-! # Theorems -/

/-! ## C1: the single-student request -/

/-- **C1.** The claim says a plan request with exactly one student and
`max_buses = 3` yields a successful plan with one route and
`total_buses = 1`.  The code instead raises an uncaught
`KeyError('recommended_buses')`: the fewer-than-2-students branch of
`analyze_student_clusters` returns a dict without that key, and
`optimize_routes` subscripts it unconditionally. -/
theorem optimize_routes_single_student_keyerror (hd : HdFn) (onemap : OnemapFn)
    (solver : SolverFn) (dbscan : DbscanFn) (school : School) (st : Student) :
    optimize_routes hd onemap solver dbscan (some school) [st] 3 =
      (Except.error (PyErr.keyError "recommended_buses"), []) := by
  simp [optimize_routes, analyze_student_clusters]

/-! ## C8 and C10: the polyline decoder -/

/-- `readVarint` consumes at least one character. -/
theorem readVarint_shrink :
    ∀ (l : List Char) (res sh : Nat) (r : Nat) (l' : List Char),
      readVarint l res sh = some (r, l') → l'.length < l.length := by
  intro l
  induction l with
  | nil => intro res sh r l' h; simp [readVarint] at h
  | cons c rest ih =>
    intro res sh r l' h
    rw [readVarint] at h
    by_cases hb : ((c.toNat : Int) - 63) < 32
    · simp only [if_pos hb] at h
      cases h
      simp
    · simp only [if_neg hb] at h
      exact Nat.lt_trans (ih _ _ _ _ h) (by simp)

/-- **C10.** Termination of `decode_polyline` within the length bound:
the decoding loop consumes input strictly, so any fuel of at least the
input length computes the same (final) result — in particular the fuel
`encoded.length` used by `decode_polyline` suffices, and the loop ends
after at most `len(encoded)` steps. -/
theorem decodeLoop_fuel_sufficient :
    ∀ (f : Nat) (s : List Char) (lat lng : Int) (f' : Nat),
      s.length ≤ f → s.length ≤ f' →
      decodeLoop f lat lng s = decodeLoop f' lat lng s := by
  intro f
  induction f with
  | zero =>
    intro s lat lng f' hf _
    have : s = [] := List.eq_nil_of_length_eq_zero (Nat.le_zero.mp hf)
    subst this
    simp [decodeLoop]
  | succ f ih =>
    intro s lat lng f' hf hf'
    match s with
    | [] => simp [decodeLoop]
    | c :: rest =>
      cases f' with
      | zero => simp at hf'
      | succ f'' =>
        have hlen : (c :: rest).length = rest.length + 1 := rfl
        rw [decodeLoop, decodeLoop] <;> try exact List.cons_ne_nil _ _
        cases h1 : readVarint (c :: rest) 0 0 with
        | none => simp only [h1]
        | some v1 =>
          obtain ⟨r1, s1⟩ := v1
          have hs1 : s1.length < (c :: rest).length := readVarint_shrink _ _ _ _ _ h1
          cases h2 : readVarint s1 0 0 with
          | none => simp only [h1, h2]
          | some v2 =>
            obtain ⟨r2, s2⟩ := v2
            have hs2 : s2.length < s1.length := readVarint_shrink _ _ _ _ _ h2
            have hrec := ih s2 (lat + zigzag r1) (lng + zigzag r2) f''
              (by omega) (by omega)
            simp only [h1, h2, hrec]

/-- Witness for C10 at a concrete input. -/
theorem decodeLoop_fuel_sufficient_witness :
    ("ab".toList.length ≤ 7 ∧ "ab".toList.length ≤ 2) ∧
      decodeLoop 7 0 0 "ab".toList = decodeLoop 2 0 0 "ab".toList :=
  ⟨by decide, decodeLoop_fuel_sufficient 7 "ab".toList 0 0 2 (by decide) (by decide)⟩

/-- **C8.** `decode_polyline` never propagates an exception (it is a
total function of the input), and it returns either the complete decode
of the whole input or — when the decoding body fails — the empty list,
never a partial prefix; e.g. the malformed input `"a"` (a lone
continuation chunk) decodes to `[]`. -/
theorem decode_polyline_total_or_empty :
    (∀ s : String,
      (∃ cs, decodeLoop s.toList.length 0 0 s.toList = some cs ∧
        decode_polyline s = cs) ∨
      (decodeLoop s.toList.length 0 0 s.toList = none ∧
        decode_polyline s = [])) ∧
    decode_polyline "a" = [] := by
  constructor
  · intro s
    cases h : decodeLoop s.toList.length 0 0 s.toList with
    | none =>
      refine Or.inr ⟨rfl, ?_⟩
      unfold decode_polyline
      rw [h]
      rfl
    | some cs =>
      refine Or.inl ⟨cs, rfl, ?_⟩
      unfold decode_polyline
      rw [h]
      rfl
  · rfl

/-! ## C6: the distance matrix -/

/-- `pyInt` agrees with `⌊·⌋` on nonnegative inputs. -/
theorem pyInt_eq_floor {K : Type} [LinearOrderedField K] [FloorRing K]
    (x : K) (hx : 0 ≤ x) : pyInt x = ⌊x⌋ := by
  unfold pyInt
  rw [if_neg (not_lt.mpr hx)]

/-- The haversine formula is symmetric in its two points. -/
theorem haversine_distance_symm (lat1 lon1 lat2 lon2 : ℝ) :
    haversine_distance lat2 lon2 lat1 lon1 = haversine_distance lat1 lon1 lat2 lon2 := by
  simp only [haversine_distance, radians]
  have h1 : (lat1 - lat2) * Real.pi / 180 / 2 = -((lat2 - lat1) * Real.pi / 180 / 2) := by
    ring
  have h2 : (lon1 - lon2) * Real.pi / 180 / 2 = -((lon2 - lon1) * Real.pi / 180 / 2) := by
    ring
  rw [h1, h2, Real.sin_neg, Real.sin_neg]
  ring_nf

/-- The haversine formula returns a nonnegative value. -/
theorem haversine_distance_nonneg (lat1 lon1 lat2 lon2 : ℝ) :
    0 ≤ haversine_distance lat1 lon1 lat2 lon2 := by
  simp only [haversine_distance]
  have := Real.arcsin_nonneg.mpr (Real.sqrt_nonneg
    (Real.sin (radians (lat2 - lat1) / 2) ^ 2 +
      Real.cos (radians lat1) * Real.cos (radians lat2) *
        Real.sin (radians (lon2 - lon1) / 2) ^ 2))
  linarith

/-- **C6 (amended).** The distance matrix built over the haversine
distance has zero diagonal, is symmetric, and each off-diagonal entry
is the geodesic km between the two points times the road factor 1.3,
times 1000, **truncated** (floored) to integer meters — the source uses
Python's `int()`, which truncates rather than rounds. -/
theorem build_distance_matrix_fast_spec (school : ℝ × ℝ) (students : List (ℝ × ℝ))
    (i j : Nat) (hij : i ≠ j) (_hi : i < students.length + 1)
    (_hj : j < students.length + 1) :
    build_distance_matrix_fast haversine_distance school students i i = 0 ∧
    build_distance_matrix_fast haversine_distance school students i j =
      build_distance_matrix_fast haversine_distance school students j i ∧
    build_distance_matrix_fast haversine_distance school students i j =
      ⌊haversine_distance ((school :: students).getD i (0, 0)).1
          ((school :: students).getD i (0, 0)).2
          ((school :: students).getD j (0, 0)).1
          ((school :: students).getD j (0, 0)).2 * (13 / 10) * 1000⌋ := by
  have hnn : forall a b c d : ℝ,
      0 ≤ haversine_distance a b c d * (13 / 10) * 1000 := fun a b c d =>
    mul_nonneg (mul_nonneg (haversine_distance_nonneg a b c d) (by norm_num))
      (by norm_num)
  refine ⟨by simp [build_distance_matrix_fast], ?_, ?_⟩
  · simp only [build_distance_matrix_fast]
    rcases Nat.lt_or_ge i j with hlt | hge
    · rw [if_neg hij, if_pos hlt, if_neg (Ne.symm hij),
        if_neg (Nat.not_lt.mpr (Nat.le_of_lt hlt))]
    · have hgt : j < i := Nat.lt_of_le_of_ne hge (Ne.symm hij)
      rw [if_neg hij, if_neg (Nat.not_lt.mpr hge), if_neg (Ne.symm hij), if_pos hgt]
  · simp only [build_distance_matrix_fast]
    rcases Nat.lt_or_ge i j with hlt | hge
    · rw [if_neg hij, if_pos hlt, pyInt_eq_floor _ (hnn _ _ _ _)]
    · have hgt : j < i := Nat.lt_of_le_of_ne hge (Ne.symm hij)
      rw [if_neg hij, if_neg (Nat.not_lt.mpr hge), haversine_distance_symm,
        pyInt_eq_floor _ (hnn _ _ _ _)]

/-- Witness for the amended C6 at a concrete matrix. -/
theorem build_distance_matrix_fast_spec_witness :
    ((0 : Nat) ≠ 1 ∧ 0 < [((1 : ℝ), (1 : ℝ))].length + 1 ∧
      1 < [((1 : ℝ), (1 : ℝ))].length + 1) ∧
    (build_distance_matrix_fast haversine_distance ((0 : ℝ), (0 : ℝ))
        [((1 : ℝ), (1 : ℝ))] 0 0 = 0 ∧
      build_distance_matrix_fast haversine_distance ((0 : ℝ), (0 : ℝ))
          [((1 : ℝ), (1 : ℝ))] 0 1 =
        build_distance_matrix_fast haversine_distance ((0 : ℝ), (0 : ℝ))
          [((1 : ℝ), (1 : ℝ))] 1 0 ∧
      build_distance_matrix_fast haversine_distance ((0 : ℝ), (0 : ℝ))
          [((1 : ℝ), (1 : ℝ))] 0 1 =
        ⌊haversine_distance
            ((((0 : ℝ), (0 : ℝ)) :: [((1 : ℝ), (1 : ℝ))]).getD 0 (0, 0)).1
            ((((0 : ℝ), (0 : ℝ)) :: [((1 : ℝ), (1 : ℝ))]).getD 0 (0, 0)).2
            ((((0 : ℝ), (0 : ℝ)) :: [((1 : ℝ), (1 : ℝ))]).getD 1 (0, 0)).1
            ((((0 : ℝ), (0 : ℝ)) :: [((1 : ℝ), (1 : ℝ))]).getD 1 (0, 0)).2 *
            (13 / 10) * 1000⌋) :=
  ⟨⟨by decide, by decide, by decide⟩,
    build_distance_matrix_fast_spec ((0 : ℝ), (0 : ℝ)) [((1 : ℝ), (1 : ℝ))] 0 1
      (by decide) (by decide) (by decide)⟩

/-- The haversine distance from `(0, 0)` to `(1/1000, 0)` degrees in
closed form: both points on the same meridian, so the central angle is
the latitude difference in radians. -/
theorem haversine_distance_milli :
    haversine_distance 0 0 (1 / 1000) 0 = 6371 * Real.pi / 180000 := by
  simp only [haversine_distance, radians]
  have h0 : ((0 : ℝ) - 0) * Real.pi / 180 / 2 = 0 := by ring
  have h1 : ((1 : ℝ) / 1000 - 0) * Real.pi / 180 / 2 = Real.pi / 360000 := by ring
  rw [h0, h1, Real.sin_zero]
  have hz :
      Real.sin (Real.pi / 360000) ^ 2 +
        Real.cos (0 * Real.pi / 180) * Real.cos (1 / 1000 * Real.pi / 180) * 0 ^ 2 =
      Real.sin (Real.pi / 360000) ^ 2 := by ring
  rw [hz]
  have hpi := Real.pi_pos
  have hnn : (0 : ℝ) ≤ Real.pi / 360000 := by positivity
  have hle : Real.pi / 360000 ≤ Real.pi := by linarith
  rw [Real.sqrt_sq (Real.sin_nonneg_of_nonneg_of_le_pi hnn hle)]
  rw [Real.arcsin_sin (by linarith) (by linarith)]
  ring

/-- **C6, counterexample to the claim as stated.**  At school `(0, 0)`
and a single student at `(0.001, 0)` the off-diagonal entry is the
truncation `144` of `≈144.553` m, not the rounding `145` the claim
asserts. -/
theorem build_distance_matrix_fast_not_rounded :
    build_distance_matrix_fast haversine_distance ((0 : ℝ), (0 : ℝ))
        [((1 / 1000 : ℝ), (0 : ℝ))] 0 1 ≠
      round (haversine_distance 0 0 (1 / 1000) 0 * (13 / 10) * 1000) := by
  have hv : haversine_distance 0 0 (1 / 1000) 0 * (13 / 10) * 1000 =
      82823 * Real.pi / 1800 := by
    rw [haversine_distance_milli]; ring
  have hgt : (3.141592 : ℝ) < Real.pi := Real.pi_gt_3141592
  have hlt : Real.pi < 3.141593 := Real.pi_lt_3141593
  have hlo : (144.5 : ℝ) < 82823 * Real.pi / 1800 := by nlinarith
  have hhi : 82823 * Real.pi / 1800 < (145 : ℝ) := by nlinarith
  have hfloor : ⌊(82823 * Real.pi / 1800 : ℝ)⌋ = 144 := by
    rw [Int.floor_eq_iff]
    constructor
    · push_cast; linarith
    · push_cast; linarith
  have hround : round (82823 * Real.pi / 1800 : ℝ) = 145 := by
    rw [round_eq, Int.floor_eq_iff]
    constructor
    · push_cast; linarith
    · push_cast; linarith
  have hentry : build_distance_matrix_fast haversine_distance ((0 : ℝ), (0 : ℝ))
      [((1 / 1000 : ℝ), (0 : ℝ))] 0 1 =
      pyInt (haversine_distance 0 0 (1 / 1000) 0 * (13 / 10) * 1000) := by
    simp [build_distance_matrix_fast]
  rw [hentry, pyInt_eq_floor _ (by rw [hv]; linarith), hv, hfloor, hround]
  decide

/-! ## C5: strategy threshold and recommended fleet -/

/-- A label occurring in the label vector has at least one carrier in
the label–student zip. -/
theorem zip_filter_label_ne_nil :
    ∀ (ls : List Int) (ss : List Student) (cid : Int), cid ∈ ls →
      ls.length ≤ ss.length →
      ((ls.zip ss).filter (fun p => p.1 = cid)) ≠ [] := by
  intro ls
  induction ls with
  | nil => intro ss cid h _; cases h
  | cons l ls' ih =>
    intro ss cid hmem hlen
    match ss with
    | [] => simp at hlen
    | s :: ss' =>
      by_cases hl : l = cid
      · subst hl
        simp [List.filter_cons]
      · have : cid ∈ ls' := by
          rcases List.mem_cons.mp hmem with h | h
          · exact absurd h.symm hl
          · exact h
        have hne := ih ss' cid this (by simpa using Nat.le_of_succ_le_succ hlen)
        simpa [List.zip_cons_cons, List.filter_cons, hl] using hne

/-- **C5.** For an analysis with at least 2 clusters: the FAR_APART
branch condition holds iff the mean pairwise centroid distance exceeds
7 km; in that case the recommended fleet is the sum over clusters of
`⌈size / 40⌉` plus `⌈noise / 40⌉`; otherwise it is `⌈N / 40⌉`. -/
theorem analyze_student_clusters_strategy (hd : HdFn) (dbscan : DbscanFn)
    (students : List Student) (school : School)
    (hlen : (dbscan students).length = students.length)
    (hn : 2 ≤ (analyze_student_clusters hd dbscan students school).n_clusters.getD 0) :
    ((7 < (analyze_student_clusters hd dbscan students school).avg_cluster_distance.getD 0 ∧
        1 < (analyze_student_clusters hd dbscan students school).n_clusters.getD 0) ↔
      7 < (analyze_student_clusters hd dbscan students school).avg_cluster_distance.getD 0) ∧
    (7 < (analyze_student_clusters hd dbscan students school).avg_cluster_distance.getD 0 →
      (analyze_student_clusters hd dbscan students school).recommended_buses =
        some ((((analyze_student_clusters hd dbscan students school).cluster_info.getD []).map
            (fun c => ceil40 c.size)).sum +
          ceil40 ((analyze_student_clusters hd dbscan students school).n_noise.getD 0))) ∧
    (¬ 7 < (analyze_student_clusters hd dbscan students school).avg_cluster_distance.getD 0 →
      (analyze_student_clusters hd dbscan students school).recommended_buses =
        some (ceil40 students.length)) := by
  by_cases htriv : students.length < 2
  · exfalso
    simp [analyze_student_clusters, htriv] at hn
  · simp only [analyze_student_clusters, if_neg htriv, Option.getD_some] at hn ⊢
    have h0 : ¬ ((dbscan students).dedup.length -
        (if (-1 : Int) ∈ dbscan students then 1 else 0) = 0) := by omega
    have h1 : ¬ ((dbscan students).dedup.length -
        (if (-1 : Int) ∈ dbscan students then 1 else 0) = 1) := by omega
    rw [if_neg h0, if_neg h1]
    refine ⟨⟨fun h => h.1, fun h => ⟨h, by omega⟩⟩, ?_, ?_⟩
    · intro h7
      rw [if_pos h7]
      simp only [Option.some.injEq]
      have hsizes : ∀ c ∈ ((dbscan students).dedup.filter (fun l => l ≠ -1)).map
          (mkClusterInfo hd school ((dbscan students).zip students)),
          max 1 (ceil40 c.size) = ceil40 c.size := by
        intro c hc
        rcases List.mem_map.mp hc with ⟨cid, hcid, rfl⟩
        have hcid' : cid ∈ dbscan students :=
          List.mem_dedup.mp (List.mem_filter.mp hcid).1
        have hne := zip_filter_label_ne_nil (dbscan students) students cid hcid'
          (le_of_eq hlen)
        have hpos : 0 < (((dbscan students).zip students).filter
            (fun p => p.1 = cid)).length := List.length_pos.mpr hne
        simp only [mkClusterInfo, ceil40, List.length_map]
        omega
      rw [List.map_congr_left hsizes]
      rcases Nat.eq_zero_or_pos ((dbscan students).count (-1)) with hz | hp
      · rw [hz, if_neg (by omega)]
        rfl
      · rw [if_pos hp]
    · intro h7
      rw [if_neg h7]
      simp only [Option.some.injEq]
      have : 2 ≤ students.length := by omega
      unfold ceil40
      omega

/-- Witness for C5 on the concrete two-cluster scenario. -/
theorem analyze_student_clusters_strategy_witness :
    ((db6 stu6).length = stu6.length ∧
      2 ≤ (analyze_student_clusters hdLat db6 stu6 sch0).n_clusters.getD 0) ∧
    (((7 < (analyze_student_clusters hdLat db6 stu6 sch0).avg_cluster_distance.getD 0 ∧
        1 < (analyze_student_clusters hdLat db6 stu6 sch0).n_clusters.getD 0) ↔
      7 < (analyze_student_clusters hdLat db6 stu6 sch0).avg_cluster_distance.getD 0) ∧
    (7 < (analyze_student_clusters hdLat db6 stu6 sch0).avg_cluster_distance.getD 0 →
      (analyze_student_clusters hdLat db6 stu6 sch0).recommended_buses =
        some ((((analyze_student_clusters hdLat db6 stu6 sch0).cluster_info.getD []).map
            (fun c => ceil40 c.size)).sum +
          ceil40 ((analyze_student_clusters hdLat db6 stu6 sch0).n_noise.getD 0))) ∧
    (¬ 7 < (analyze_student_clusters hdLat db6 stu6 sch0).avg_cluster_distance.getD 0 →
      (analyze_student_clusters hdLat db6 stu6 sch0).recommended_buses =
        some (ceil40 stu6.length))) :=
  ⟨⟨by decide, by decide⟩,
    analyze_student_clusters_strategy hdLat db6 stu6 sch0 (by decide) (by decide)⟩

/-! ## C3: the selection rule -/

/-- `foldl min` lands on an element of the list (seed included). -/
theorem foldl_min_mem : ∀ (xs : List ℚ) (x : ℚ), xs.foldl min x ∈ x :: xs := by
  intro xs
  induction xs with
  | nil => intro x; simp
  | cons y ys ih =>
    intro x
    have h := ih (min x y)
    simp only [List.foldl_cons]
    rcases List.mem_cons.mp h with h' | h'
    · rcases min_choice x y with hc | hc
      · rw [h', hc]
        exact List.mem_cons_self _ _
      · rw [h', hc]
        exact List.mem_cons_of_mem _ (List.mem_cons_self _ _)
    · exact List.mem_cons_of_mem _ (List.mem_cons_of_mem _ h')

/-- `foldl min` is a lower bound of seed and list. -/
theorem foldl_min_le : ∀ (xs : List ℚ) (x : ℚ) (y : ℚ), y ∈ x :: xs →
    xs.foldl min x ≤ y := by
  intro xs
  induction xs with
  | nil =>
    intro x y hy
    simp at hy
    simp [hy]
  | cons z zs ih =>
    intro x y hy
    simp only [List.foldl_cons]
    have h1 : zs.foldl min (min x z) ≤ min x z :=
      ih (min x z) (min x z) (List.mem_cons_self _ _)
    rcases List.mem_cons.mp hy with h | h
    · rw [h]
      exact le_trans h1 (min_le_left _ _)
    · rcases List.mem_cons.mp h with h' | h'
      · rw [h']
        exact le_trans h1 (min_le_right _ _)
      · exact ih (min x z) y (List.mem_cons_of_mem _ h')

/-- `listMinQ` of a nonempty list is an element and a lower bound. -/
theorem listMinQ_spec (l : List ℚ) (hne : l ≠ []) :
    listMinQ l ∈ l ∧ ∀ y ∈ l, listMinQ l ≤ y := by
  match l with
  | x :: xs =>
    constructor
    · exact foldl_min_mem xs x
    · intro y hy
      exact foldl_min_le xs x y hy

/-- The strict-improvement fold of `argminFirst` yields an element that
minimizes `f` over seed and list. -/
theorem argmin_foldl_spec {α : Type} (f : α → ℚ) :
    ∀ (l : List α) (x : α),
      (l.foldl (fun b y => if f y < f b then y else b) x) ∈ x :: l ∧
      ∀ y ∈ x :: l, f (l.foldl (fun b y => if f y < f b then y else b) x) ≤ f y := by
  intro l
  induction l with
  | nil => intro x; simp
  | cons z zs ih =>
    intro x
    by_cases hz : f z < f x
    · have h := ih z
      refine ⟨?_, ?_⟩
      · simp only [List.foldl_cons, if_pos hz]
        rcases List.mem_cons.mp h.1 with h' | h' <;> simp [h']
      · intro y hy
        simp only [List.foldl_cons, if_pos hz]
        rcases List.mem_cons.mp hy with h' | h'
        · rw [h']
          exact le_of_lt (lt_of_le_of_lt (h.2 z (List.mem_cons_self _ _)) hz)
        · exact h.2 y h'
    · have h := ih x
      refine ⟨?_, ?_⟩
      · simp only [List.foldl_cons, if_neg hz]
        rcases List.mem_cons.mp h.1 with h' | h' <;> simp [h']
      · intro y hy
        simp only [List.foldl_cons, if_neg hz]
        rcases List.mem_cons.mp hy with h' | h'
        · rw [h']
          exact h.2 x (List.mem_cons_self _ _)
        · rcases List.mem_cons.mp h' with h'' | h''
          · rw [h'']
            exact le_trans (h.2 x (List.mem_cons_self _ _)) (le_of_not_lt hz)
          · exact h.2 y (List.mem_cons_of_mem _ h'')

/-- On a list sorted by a `Nat` key, `find?` returns a satisfying
element with minimal key among all satisfying elements. -/
theorem find?_sorted_min {α : Type} (key : α → Nat) (p : α → Bool) :
    ∀ (l : List α), l.Pairwise (fun a b => key a ≤ key b) →
      ∀ a, l.find? p = some a → ∀ b ∈ l, p b = true → key a ≤ key b := by
  intro l
  induction l with
  | nil => intro _ a h; simp at h
  | cons x xs ih =>
    intro hpw a hfind b hb hpb
    rcases List.pairwise_cons.mp hpw with ⟨hx, hxs⟩
    cases hpx : p x with
    | true =>
      rw [List.find?_cons_of_pos _ hpx] at hfind
      cases hfind
      rcases List.mem_cons.mp hb with h | h
      · subst h; exact le_refl _
      · exact hx b h
    | false =>
      rw [List.find?_cons_of_neg _ (by simp [hpx])] at hfind
      rcases List.mem_cons.mp hb with h | h
      · subst h; rw [hpx] at hpb; cases hpb
      · exact ih hxs a hfind b h hpb

/-- The sorted-by-bus-count view of the candidate list is a permutation
and pairwise ordered on `num_buses`. -/
theorem mergeSort_buses_spec (results : List Cand) :
    (results.mergeSort (fun a b => a.num_buses ≤ b.num_buses)).Perm results ∧
    (results.mergeSort (fun a b => a.num_buses ≤ b.num_buses)).Pairwise
      (fun a b => a.num_buses ≤ b.num_buses) := by
  refine ⟨List.mergeSort_perm results _, ?_⟩
  have h := @List.sorted_mergeSort Cand
    (fun a b : Cand => decide (a.num_buses ≤ b.num_buses))
    (fun a b c hab hbc => by
      simp only [decide_eq_true_eq] at hab hbc ⊢
      omega)
    (fun a b => by
      simp only [Bool.or_eq_true, decide_eq_true_eq]
      omega)
    results
  exact h.imp (fun hab => by simpa using hab)

/-- **C3.** In SWEEP mode, with `m` the least max-route-time among the
recorded candidates: if `m > 1800` s the returned plan is a candidate
attaining `m` (speed mode); otherwise it is a candidate within
`1.15 · m` having the fewest buses among all candidates within
`1.15 · m`. -/
theorem pickBest_selection (results : List Cand) (viz : Visualization)
    (hne : results ≠ []) (hpos : ∀ c ∈ results, 0 ≤ c.max_time) :
    (1800 < listMinQ (results.map (·.max_time)) →
      ∃ c ∈ results, (pickBest results viz).routes = c.routes ∧
        (pickBest results viz).total_buses = c.num_buses ∧
        c.max_time = listMinQ (results.map (·.max_time))) ∧
    (¬ 1800 < listMinQ (results.map (·.max_time)) →
      ∃ c ∈ results, (pickBest results viz).routes = c.routes ∧
        (pickBest results viz).total_buses = c.num_buses ∧
        c.max_time ≤ listMinQ (results.map (·.max_time)) * (23 / 20) ∧
        ∀ c' ∈ results, c'.max_time ≤ listMinQ (results.map (·.max_time)) * (23 / 20) →
          c.num_buses ≤ c'.num_buses) := by
  obtain ⟨r, rs, rfl⟩ := List.exists_cons_of_ne_nil hne
  have hmapne : (r :: rs).map (fun c : Cand => c.max_time) ≠ [] := by simp
  obtain ⟨hmmem, hmle⟩ := listMinQ_spec _ hmapne
  obtain ⟨c0, hc0mem, hc0eq⟩ := List.mem_map.mp hmmem
  constructor
  · intro h1800
    unfold pickBest
    rw [if_pos h1800]
    obtain ⟨hamem, hale⟩ := argmin_foldl_spec (fun c : Cand => c.max_time) rs r
    simp only [argminFirst]
    refine ⟨_, hamem, rfl, rfl, ?_⟩
    refine le_antisymm ?_ ?_
    · rw [← hc0eq]
      exact hale c0 hc0mem
    · exact hmle _ (List.mem_map.mpr ⟨_, hamem, rfl⟩)
  · intro h1800
    unfold pickBest
    rw [if_neg h1800]
    obtain ⟨hperm, hpw⟩ := mergeSort_buses_spec (r :: rs)
    have hM0 : 0 ≤ listMinQ ((r :: rs).map (fun c : Cand => c.max_time)) := by
      rw [← hc0eq]
      exact hpos c0 hc0mem
    have hc0q : (decide (c0.max_time ≤
        listMinQ ((r :: rs).map (fun c : Cand => c.max_time)) * (23 / 20))) = true := by
      rw [decide_eq_true_eq, hc0eq]
      nlinarith
    cases hfind : (((r :: rs).mergeSort fun a b => a.num_buses ≤ b.num_buses).find?
        fun c => c.max_time ≤
          listMinQ ((r :: rs).map (fun c : Cand => c.max_time)) * (23 / 20)) with
    | none =>
      exfalso
      have := List.find?_eq_none.mp hfind c0 (hperm.mem_iff.mpr hc0mem)
      exact this hc0q
    | some c =>
      simp only [hfind]
      have hcmem : c ∈ r :: rs := hperm.mem_iff.mp (List.mem_of_find?_eq_some hfind)
      have hcq := List.find?_some hfind
      rw [decide_eq_true_eq] at hcq
      refine ⟨c, hcmem, rfl, rfl, hcq, ?_⟩
      intro c' hc' hq'
      exact find?_sorted_min (fun c : Cand => c.num_buses) _ _ hpw c hfind c'
        (hperm.mem_iff.mpr hc') (by rw [decide_eq_true_eq]; exact hq')

/-- Witness for C3: two candidates, best time 900 s ≤ 1800 s, threshold
1035 s; the one-bus candidate at 1000 s qualifies and is chosen. -/
theorem pickBest_selection_witness :
    (([⟨1, [route0], 1000, 5⟩, ⟨2, [route0], 900, 6⟩] : List Cand) ≠ [] ∧
      ∀ c ∈ ([⟨1, [route0], 1000, 5⟩, ⟨2, [route0], 900, 6⟩] : List Cand),
        0 ≤ c.max_time) ∧
    ((1800 < listMinQ (([⟨1, [route0], 1000, 5⟩, ⟨2, [route0], 900, 6⟩] :
        List Cand).map (·.max_time)) →
      ∃ c ∈ ([⟨1, [route0], 1000, 5⟩, ⟨2, [route0], 900, 6⟩] : List Cand),
        (pickBest [⟨1, [route0], 1000, 5⟩, ⟨2, [route0], 900, 6⟩] ⟨[], []⟩).routes =
          c.routes ∧
        (pickBest [⟨1, [route0], 1000, 5⟩, ⟨2, [route0], 900, 6⟩] ⟨[], []⟩).total_buses =
          c.num_buses ∧
        c.max_time = listMinQ (([⟨1, [route0], 1000, 5⟩, ⟨2, [route0], 900, 6⟩] :
          List Cand).map (·.max_time))) ∧
    (¬ 1800 < listMinQ (([⟨1, [route0], 1000, 5⟩, ⟨2, [route0], 900, 6⟩] :
        List Cand).map (·.max_time)) →
      ∃ c ∈ ([⟨1, [route0], 1000, 5⟩, ⟨2, [route0], 900, 6⟩] : List Cand),
        (pickBest [⟨1, [route0], 1000, 5⟩, ⟨2, [route0], 900, 6⟩] ⟨[], []⟩).routes =
          c.routes ∧
        (pickBest [⟨1, [route0], 1000, 5⟩, ⟨2, [route0], 900, 6⟩] ⟨[], []⟩).total_buses =
          c.num_buses ∧
        c.max_time ≤ listMinQ (([⟨1, [route0], 1000, 5⟩, ⟨2, [route0], 900, 6⟩] :
          List Cand).map (·.max_time)) * (23 / 20) ∧
        ∀ c' ∈ ([⟨1, [route0], 1000, 5⟩, ⟨2, [route0], 900, 6⟩] : List Cand),
          c'.max_time ≤ listMinQ (([⟨1, [route0], 1000, 5⟩, ⟨2, [route0], 900, 6⟩] :
            List Cand).map (·.max_time)) * (23 / 20) →
          c.num_buses ≤ c'.num_buses)) :=
  ⟨⟨List.cons_ne_nil _ _, by norm_num [List.forall_mem_cons]⟩,
    pickBest_selection _ ⟨[], []⟩ (List.cons_ne_nil _ _)
      (by norm_num [List.forall_mem_cons])⟩

/-! ## Extraction lemmas for `solve_cvrp` -/

/-- Reading back every index of a list through `getD` reproduces it. -/
theorem range_map_getD {α : Type} :
    ∀ (l : List α) (d : α), (List.range l.length).map (fun i => l.getD i d) = l := by
  intro l
  induction l with
  | nil => intro d; simp
  | cons x xs ih =>
    intro d
    rw [List.length_cons, List.range_succ_eq_map, List.map_cons, List.map_map]
    simp only [List.getD_cons_zero]
    congr 1
    rw [show ((fun i => (x :: xs).getD i d) ∘ Nat.succ) = (fun i => xs.getD i d) from
      funext (fun i => by simp [Function.comp, List.getD_cons_succ])]
    exact ih d

/-- The students of an extracted route are the tour read through the
student list. -/
theorem buildRoute_students (onemap : OnemapFn) (school : School)
    (students : List Student) (t : List Nat) :
    (buildRoute onemap school students t).route.students =
      t.map (fun i => students.getD i defaultStudent) := rfl

/-- A successful solve has no error key and extracts one route per
nonempty tour. -/
theorem solve_cvrp_routes (onemap : OnemapFn) (solver : SolverFn) (school : School)
    (students : List Student) (k : Nat) (tours : List (List Nat))
    (hne : students ≠ []) (hsol : solver school students k = some tours) :
    (solve_cvrp onemap solver school students k).1.error = none ∧
    (solve_cvrp onemap solver school students k).1.routes =
      (tours.filter (fun t => !t.isEmpty)).map
        (fun t => (buildRoute onemap school students t).route) := by
  obtain ⟨s, ss, rfl⟩ := List.exists_cons_of_ne_nil hne
  constructor <;> simp [solve_cvrp, hsol]

/-- Coverage of one solve: when the solver's tours jointly visit each
student index exactly once, the extracted routes' students are a
permutation of the input students. -/
theorem solve_cvrp_coverage (onemap : OnemapFn) (solver : SolverFn) (school : School)
    (students : List Student) (k : Nat) (tours : List (List Nat))
    (hne : students ≠ []) (hsol : solver school students k = some tours)
    (hvalid : tours.flatten.Perm (List.range students.length)) :
    ((solve_cvrp onemap solver school students k).1.routes.flatMap
      (·.students)).Perm students := by
  rw [(solve_cvrp_routes onemap solver school students k tours hne hsol).2]
  rw [List.flatMap_map]
  have h1 : ((tours.filter (fun t => !t.isEmpty)).flatMap
      (fun t => (buildRoute onemap school students t).route.students)) =
      ((tours.filter (fun t => !t.isEmpty)).flatten).map
        (fun i => students.getD i defaultStudent) := by
    rw [List.map_flatten]
    simp only [buildRoute_students]
    induction (tours.filter (fun t => !t.isEmpty)) with
    | nil => rfl
    | cons t ts ih => rw [List.flatMap_cons, List.map_cons, List.flatten_cons, ih]
  rw [h1, List.flatten_filter_not_isEmpty]
  have h2 := hvalid.map (fun i => students.getD i defaultStudent)
  rw [range_map_getD] at h2
  exact h2

/-- Capacity of one solve: tour lengths bound the route sizes. -/
theorem solve_cvrp_capacity (onemap : OnemapFn) (solver : SolverFn) (school : School)
    (students : List Student) (k : Nat) (tours : List (List Nat))
    (hne : students ≠ []) (hsol : solver school students k = some tours)
    (hcap : ∀ t ∈ tours, t.length ≤ 40) :
    ∀ r ∈ (solve_cvrp onemap solver school students k).1.routes,
      r.students.length ≤ 40 := by
  rw [(solve_cvrp_routes onemap solver school students k tours hne hsol).2]
  intro r hr
  rcases List.mem_map.mp hr with ⟨t, htmem, rfl⟩
  rw [buildRoute_students, List.length_map]
  exact hcap t (List.mem_filter.mp htmem).1

/-- A successful, covering solve on a nonempty student set produces at
least one route. -/
theorem solve_cvrp_routes_ne_nil (onemap : OnemapFn) (solver : SolverFn)
    (school : School) (students : List Student) (k : Nat) (tours : List (List Nat))
    (hne : students ≠ []) (hsol : solver school students k = some tours)
    (hvalid : tours.flatten.Perm (List.range students.length)) :
    (solve_cvrp onemap solver school students k).1.routes ≠ [] := by
  intro hcontra
  have hcov := solve_cvrp_coverage onemap solver school students k tours hne hsol hvalid
  rw [hcontra] at hcov
  simp only [List.flatMap_nil] at hcov
  exact hne (hcov.nil_eq).symm

/-! ## Isolated-student attachment lemmas -/

/-- `listModify` preserves length. -/
theorem listModify_length {α : Type} (f : α → α) :
    ∀ (n : Nat) (l : List α), (listModify f n l).length = l.length := by
  intro n l
  induction l generalizing n with
  | nil => cases n <;> rfl
  | cons c cs ih => cases n with
    | zero => rfl
    | succ m => simp [listModify, ih]

/-- From a `some` seed, the nearest-cluster fold returns `some` of a
pair whose index stays below the bound, provided the seed and all
scanned indices do. -/
theorem nearest_fold_some_lt (hd : HdFn) (s : Student) (n : Nat) :
    ∀ (l : List (Nat × ClusterInfo)) (b : ℚ × Nat), b.2 < n →
      (∀ p ∈ l, p.1 < n) →
      ∃ x, (l.foldl (fun best p =>
        let d := hd s.latitude s.longitude p.2.centerLat p.2.centerLng
        match best with
        | none => some (d, p.1)
        | some bd => if d < bd.1 then some (d, p.1) else some bd)
        (some b)) = some x ∧ x.2 < n := by
  intro l
  induction l with
  | nil => intro b hb _; exact ⟨b, rfl, hb⟩
  | cons p rest ih =>
    intro b hb hl
    rw [List.foldl_cons]
    by_cases hlt : hd s.latitude s.longitude p.2.centerLat p.2.centerLng < b.1
    · simp only [hlt, ite_true]
      exact ih (hd s.latitude s.longitude p.2.centerLat p.2.centerLng, p.1)
        (hl p (List.mem_cons_self _ _))
        (fun q hq => hl q (List.mem_cons_of_mem _ hq))
    · simp only [hlt, ite_false]
      exact ih b hb (fun q hq => hl q (List.mem_cons_of_mem _ hq))

/-- The nearest-cluster index is in range for a nonempty cluster list. -/
theorem nearestClusterIdx_lt (hd : HdFn) (cinfo : List ClusterInfo) (s : Student)
    (hne : cinfo ≠ []) : nearestClusterIdx hd cinfo s < cinfo.length := by
  obtain ⟨c, cs, rfl⟩ := List.exists_cons_of_ne_nil hne
  unfold nearestClusterIdx
  have henum : (c :: cs).enum = (0, c) :: (cs.enumFrom 1) := rfl
  rw [henum, List.foldl_cons]
  have hbound : ∀ p ∈ cs.enumFrom 1, p.1 < (c :: cs).length := by
    intro p hp
    obtain ⟨i, x⟩ := p
    have := List.mem_enumFrom hp
    simp only [List.length_cons]
    omega
  obtain ⟨x, hx, hxlt⟩ := nearest_fold_some_lt hd s (c :: cs).length (cs.enumFrom 1)
    (hd s.latitude s.longitude c.centerLat c.centerLng, 0) (by simp) hbound
  rw [hx]
  simpa using hxlt

/-- Appending a student into the cluster at a valid index only adds
that student to the multiset of all attached students. -/
theorem listModify_flatMap_perm (s : Student) :
    ∀ (cinfo : List ClusterInfo) (idx : Nat), idx < cinfo.length →
      ((listModify (fun c => { c with students := c.students ++ [s] }) idx
        cinfo).flatMap (·.students)).Perm
      (cinfo.flatMap (·.students) ++ [s]) := by
  intro cinfo
  induction cinfo with
  | nil => intro idx h; simp at h
  | cons c cs ih =>
    intro idx hidx
    cases idx with
    | zero =>
      simp only [listModify, List.flatMap_cons]
      rw [List.append_assoc, List.append_assoc]
      exact List.Perm.append_left c.students List.perm_append_comm
    | succ m =>
      simp only [listModify, List.flatMap_cons]
      rw [List.append_assoc]
      exact List.Perm.append_left c.students (ih m (by simpa using Nat.lt_of_succ_lt_succ hidx))

/-- Attaching the isolated students to nearest clusters preserves the
overall multiset of students. -/
theorem attachIsolated_flatMap_perm (hd : HdFn) :
    ∀ (isolated : List Student) (cinfo : List ClusterInfo), cinfo ≠ [] →
      ((attachIsolated hd cinfo isolated).flatMap (·.students)).Perm
        (cinfo.flatMap (·.students) ++ isolated) := by
  intro isolated
  induction isolated with
  | nil => intro cinfo _; simp [attachIsolated]
  | cons s rest ih =>
    intro cinfo hne
    have hidx := nearestClusterIdx_lt hd cinfo s hne
    have hlen : (listModify (fun c => { c with students := c.students ++ [s] })
        (nearestClusterIdx hd cinfo s) cinfo).length = cinfo.length :=
      listModify_length _ _ _
    have hne' : (listModify (fun c => { c with students := c.students ++ [s] })
        (nearestClusterIdx hd cinfo s) cinfo) ≠ [] := by
      intro hcontra
      rw [hcontra] at hlen
      exact hne (List.eq_nil_of_length_eq_zero hlen.symm)
    have hstep := ih _ hne'
    have hmod := listModify_flatMap_perm s cinfo (nearestClusterIdx hd cinfo s) hidx
    unfold attachIsolated at hstep ⊢
    rw [List.foldl_cons]
    refine hstep.trans ?_
    refine (hmod.append_right rest).trans ?_
    rw [List.append_assoc]
    exact List.Perm.refl _

/-! ## Partition lemmas for the cluster analysis -/

/-- Filtering by a disjunction of two pointwise-exclusive predicates
splits into the concatenation of the two filters, up to permutation. -/
theorem filter_or_perm {α : Type} (p q : α → Bool) :
    ∀ (l : List α), (∀ x ∈ l, ¬(p x = true ∧ q x = true)) →
      (l.filter (fun x => p x || q x)).Perm (l.filter p ++ l.filter q) := by
  intro l
  induction l with
  | nil => intro _; simp
  | cons a l' ih =>
    intro hdisj
    have hdisj' : ∀ x ∈ l', ¬(p x = true ∧ q x = true) :=
      fun x hx => hdisj x (List.mem_cons_of_mem _ hx)
    by_cases hp : p a = true
    · have hq : ¬ q a = true := fun hq => hdisj a (List.mem_cons_self _ _) ⟨hp, hq⟩
      simp only [List.filter_cons, hp, hq, Bool.true_or, ite_true, ite_false,
        Bool.not_eq_true] at *
      simpa using (ih hdisj').cons a
    · by_cases hq : q a = true
      · simp only [List.filter_cons, hp, hq, Bool.false_or, ite_true, ite_false] at *
        refine ((ih hdisj').cons a).trans ?_
        simpa using List.perm_middle.symm
      · simp only [List.filter_cons, hp, hq, Bool.false_or, ite_false] at *
        simpa using ih hdisj'

/-- Concatenating, over a duplicate-free id list, the sublists of pairs
with that first component gives all pairs whose first component occurs
in the id list, up to permutation. -/
theorem flatMap_filter_perm {α β : Type} [DecidableEq α] :
    ∀ (ids : List α), ids.Nodup → ∀ (l : List (α × β)),
      (ids.flatMap (fun i => l.filter (fun p => p.1 = i))).Perm
        (l.filter (fun p => decide (p.1 ∈ ids))) := by
  intro ids
  induction ids with
  | nil =>
    intro _ l
    simp
  | cons i rest ih =>
    intro hnd l
    rcases List.nodup_cons.mp hnd with ⟨hni, hndrest⟩
    rw [List.flatMap_cons]
    have hsplit : (l.filter (fun p => decide (p.1 ∈ i :: rest))).Perm
        (l.filter (fun p => p.1 = i) ++ l.filter (fun p => decide (p.1 ∈ rest))) := by
      have hcongr : l.filter (fun p => decide (p.1 ∈ i :: rest)) =
          l.filter (fun p => decide (p.1 = i) || decide (p.1 ∈ rest)) := by
        refine List.filter_congr ?_
        intro x _
        simp [List.mem_cons]
      rw [hcongr]
      refine filter_or_perm _ _ l ?_
      intro x _ hx
      rw [decide_eq_true_eq] at hx
      obtain ⟨h1, h2⟩ := hx
      rw [decide_eq_true_eq] at h2
      exact hni (h1 ▸ h2)
    exact ((ih hndrest l).append_left (l.filter (fun p => p.1 = i))).trans hsplit.symm

/-- The members of one analyzed cluster. -/
theorem mkClusterInfo_students (hd : HdFn) (school : School)
    (labeled : List (Int × Student)) (cid : Int) :
    (mkClusterInfo hd school labeled cid).students =
      (labeled.filter (fun p => p.1 = cid)).map (·.2) := rfl

/-- Cluster members plus isolated students are exactly the input
students (I5): the DBSCAN labels partition the zipped list by label
id, ids ≠ −1 become clusters, and −1 becomes the isolated list. -/
theorem analyze_partition (hd : HdFn) (dbscan : DbscanFn)
    (students : List Student) (school : School)
    (hlen : (dbscan students).length = students.length)
    (htriv : ¬ students.length < 2) :
    ((((analyze_student_clusters hd dbscan students school).cluster_info.getD []).flatMap
      (·.students)) ++
      ((analyze_student_clusters hd dbscan students school).isolated_students.getD [])).Perm
      students := by
  simp only [analyze_student_clusters, if_neg htriv, Option.getD_some]
  rw [List.flatMap_map]
  have hstep : ((((dbscan students).dedup.filter (fun l => l ≠ -1)).flatMap
      (fun cid => (mkClusterInfo hd school ((dbscan students).zip students) cid).students))) =
      (((dbscan students).dedup.filter (fun l => l ≠ -1)).flatMap
        (fun cid => (((dbscan students).zip students).filter
          (fun p => p.1 = cid)))).map (·.2) := by
    rw [List.map_flatMap]
    rfl
  rw [hstep, ← List.map_append]
  have hperm1 : ((((dbscan students).dedup.filter (fun l => l ≠ -1)).flatMap
      (fun cid => (((dbscan students).zip students).filter (fun p => p.1 = cid)))) ++
      (((dbscan students).zip students).filter (fun p => p.1 = -1))).Perm
      ((dbscan students).zip students) := by
    have hnd : ((dbscan students).dedup.filter (fun l => l ≠ -1)).Nodup :=
      (List.nodup_dedup _).filter _
    have hmain := flatMap_filter_perm ((dbscan students).dedup.filter (fun l => l ≠ -1))
      hnd ((dbscan students).zip students)
    have hcongr : (((dbscan students).zip students).filter
        (fun p => decide (p.1 ∈ (dbscan students).dedup.filter (fun l => l ≠ -1)))) =
        (((dbscan students).zip students).filter (fun p => !decide (p.1 = -1))) := by
      refine List.filter_congr ?_
      intro x hx
      have hx1 : x.1 ∈ dbscan students := by
        obtain ⟨a, b⟩ := x
        exact (List.of_mem_zip hx).1
      by_cases hm : x.1 = -1
      · simp [hm, List.mem_filter]
      · simp [hm, List.mem_filter, List.mem_dedup, hx1]
    refine ((hmain.trans (by rw [hcongr])).append_right _).trans ?_
    exact List.perm_append_comm.trans (List.filter_append_perm
      (fun p : Int × Student => decide (p.1 = -1)) ((dbscan students).zip students))
  refine (hperm1.map (·.2)).trans ?_
  rw [List.map_snd_zip _ _ (le_of_eq hlen.symm)]

/-! ## FAR_APART branch lemmas -/

/-- When a far-branch cluster solve succeeds with routes, the step
appends those routes. -/
theorem farStep_all_routes_of_some (onemap : OnemapFn) (solver : SolverFn)
    (school : School) (acc : FarAcc) (c : ClusterInfo) (tours : List (List Nat))
    (hcne : c.students ≠ [])
    (hsol : solver school c.students (max 1 (ceil40 c.students.length)) = some tours)
    (hvalid : tours.flatten.Perm (List.range c.students.length)) :
    (farStep onemap solver school acc c).all_routes =
      acc.all_routes ++ (solve_cvrp onemap solver school c.students
        (max 1 (ceil40 c.students.length))).1.routes := by
  have herr := (solve_cvrp_routes onemap solver school c.students _ tours hcne hsol).1
  have hrne := solve_cvrp_routes_ne_nil onemap solver school c.students _ tours
    hcne hsol hvalid
  obtain ⟨r1, rr, hroutes⟩ := List.exists_cons_of_ne_nil hrne
  unfold farStep
  dsimp only
  rw [herr, hroutes]

/-- Far-branch coverage: with a total, covering solver the collected
routes' students are, up to permutation, the accumulated ones plus all
cluster members. -/
theorem farBranch_fold_coverage (onemap : OnemapFn) (solver : SolverFn) (school : School)
    (Hvalid : ∀ sch ss k tours, solver sch ss k = some tours →
      tours.flatten.Perm (List.range ss.length))
    (Htotal : ∀ sch ss k, ∃ tours, solver sch ss k = some tours) :
    ∀ (cinfo : List ClusterInfo) (acc : FarAcc), (∀ c ∈ cinfo, c.students ≠ []) →
      ((cinfo.foldl (farStep onemap solver school) acc).all_routes.flatMap
        (·.students)).Perm
      (acc.all_routes.flatMap (·.students) ++ cinfo.flatMap (·.students)) := by
  intro cinfo
  induction cinfo with
  | nil => intro acc _; simp
  | cons c cs ih =>
    intro acc hmem
    obtain ⟨tours, hsol⟩ := Htotal school c.students (max 1 (ceil40 c.students.length))
    have hvalid := Hvalid _ _ _ _ hsol
    have hcne := hmem c (List.mem_cons_self _ _)
    have hstep := farStep_all_routes_of_some onemap solver school acc c tours
      hcne hsol hvalid
    have hcov := solve_cvrp_coverage onemap solver school c.students
      (max 1 (ceil40 c.students.length)) tours hcne hsol hvalid
    rw [List.foldl_cons]
    refine (ih _ (fun x hx => hmem x (List.mem_cons_of_mem _ hx))).trans ?_
    rw [hstep, List.flatMap_append, List.flatMap_cons, List.append_assoc]
    exact List.Perm.append_left _ (hcov.append_right _)

/-- Every route collected by the far-branch fold comes from the
accumulator or from one of the per-cluster solves. -/
theorem farBranch_fold_routes_mem (onemap : OnemapFn) (solver : SolverFn)
    (school : School) :
    ∀ (cinfo : List ClusterInfo) (acc : FarAcc) (r : Route),
      r ∈ (cinfo.foldl (farStep onemap solver school) acc).all_routes →
      r ∈ acc.all_routes ∨ ∃ c ∈ cinfo,
        r ∈ (solve_cvrp onemap solver school c.students
          (max 1 (ceil40 c.students.length))).1.routes := by
  intro cinfo
  induction cinfo with
  | nil => intro acc r hr; exact Or.inl hr
  | cons c cs ih =>
    intro acc r hr
    rw [List.foldl_cons] at hr
    rcases ih _ r hr with hacc | ⟨c', hc', hr'⟩
    · unfold farStep at hacc
      dsimp only at hacc
      split at hacc
      · rcases List.mem_append.mp hacc with h | h
        · exact Or.inl h
        · exact Or.inr ⟨c, List.mem_cons_self _ _, h⟩
      · exact Or.inl hacc
    · exact Or.inr ⟨c', List.mem_cons_of_mem _ hc', hr'⟩

/-! ## Sweep lemmas -/

/-- A recorded candidate carries exactly the routes of its solve. -/
theorem tryBuses_routes (onemap : OnemapFn) (solver : SolverFn) (school : School)
    (students : List Student) (k : Nat) (c : Cand) :
    (tryBuses onemap solver school students k).1 = some c →
    c.routes = (solve_cvrp onemap solver school students k).1.routes := by
  intro h
  unfold tryBuses at h
  dsimp only at h
  split at h
  · cases h
    rfl
  · cases h

/-- `pickBest` returns one of the candidates (routes and bus count),
with no error key. -/
theorem pickBest_routes_mem (results : List Cand) (viz : Visualization)
    (hne : results ≠ []) :
    ∃ c ∈ results, (pickBest results viz).routes = c.routes ∧
      (pickBest results viz).total_buses = c.num_buses ∧
      (pickBest results viz).error = none := by
  obtain ⟨r, rs, rfl⟩ := List.exists_cons_of_ne_nil hne
  unfold pickBest
  by_cases h1800 : 1800 < listMinQ ((r :: rs).map (fun c : Cand => c.max_time))
  · rw [if_pos h1800]
    simp only [argminFirst]
    refine ⟨_, (argmin_foldl_spec (fun c : Cand => c.max_time) rs r).1, ?_, ?_, ?_⟩ <;> trivial
  · rw [if_neg h1800]
    rcases hfind : (((r :: rs).mergeSort fun a b => a.num_buses ≤ b.num_buses).find?
        fun c => c.max_time ≤
          listMinQ ((r :: rs).map (fun c : Cand => c.max_time)) * (23 / 20)) with _ | c
    · simp only [hfind, argminFirst]
      refine ⟨_, (argmin_foldl_spec (fun c : Cand => c.max_time) rs r).1, ?_, ?_, ?_⟩ <;> trivial
    · simp only [hfind]
      refine ⟨c, (List.mergeSort_perm (r :: rs) _).mem_iff.mp
        (List.mem_of_find?_eq_some hfind), ?_, ?_, ?_⟩ <;> trivial

/-- The sweep either fails with the error plan or returns a `pickBest`
plan over candidates that each originate from a solve over the full
student list. -/
theorem sweepPhase_spec (onemap : OnemapFn) (solver : SolverFn) (school : School)
    (students : List Student) (recommended_buses max_buses : Nat)
    (viz : Visualization) :
    ((sweepPhase onemap solver school students recommended_buses max_buses viz).1.error =
        some "Could not create routes" ∧
      (sweepPhase onemap solver school students recommended_buses max_buses viz).1.routes
        = []) ∨
    ∃ c, (∃ k, (tryBuses onemap solver school students k).1 = some c) ∧
      (sweepPhase onemap solver school students recommended_buses max_buses viz).1.routes
        = c.routes ∧
      (sweepPhase onemap solver school students recommended_buses max_buses viz).1.error
        = none := by
  unfold sweepPhase
  dsimp only
  cases hres : ((tryBuses onemap solver school students 1 ::
      (if 1 < recommended_buses then
        List.range' 2 (min max_buses recommended_buses - 1) else []).map
        (tryBuses onemap solver school students)).map (·.1)).reduceOption with
  | nil =>
    exact Or.inl ⟨rfl, rfl⟩
  | cons c0 cs =>
    obtain ⟨c, hcmem, hroutes, hbuses, herr⟩ := pickBest_routes_mem (c0 :: cs) viz
      (List.cons_ne_nil _ _)
    refine Or.inr ⟨c, ?_, hroutes, herr⟩
    have hsome : some c ∈ ((tryBuses onemap solver school students 1 ::
        (if 1 < recommended_buses then
          List.range' 2 (min max_buses recommended_buses - 1) else []).map
          (tryBuses onemap solver school students)).map (·.1)) := by
      rw [← hres] at hcmem
      exact List.reduceOption_mem_iff.mp hcmem
    rcases List.mem_map.mp hsome with ⟨pair, hpair, hpc⟩
    rcases List.mem_cons.mp hpair with hp1 | hprest
    · exact ⟨1, by rw [hp1] at hpc; exact hpc⟩
    · rcases List.mem_map.mp hprest with ⟨k, _, hpk⟩
      exact ⟨k, by rw [← hpk] at hpc; exact hpc⟩

/-! ## C7: capacity -/

/-- Capacity of one solve, without presupposing solver success. -/
theorem solve_cvrp_capacity_all (onemap : OnemapFn) (solver : SolverFn)
    (school : School) (students : List Student) (k : Nat)
    (Hcap : ∀ tours, solver school students k = some tours →
      ∀ t ∈ tours, t.length ≤ 40) :
    ∀ r ∈ (solve_cvrp onemap solver school students k).1.routes,
      r.students.length ≤ 40 := by
  match students with
  | [] =>
    intro r hr
    simp [solve_cvrp] at hr
  | s :: ss =>
    cases hsol : solver school (s :: ss) k with
    | none =>
      intro r hr
      simp [solve_cvrp, hsol] at hr
    | some tours =>
      exact solve_cvrp_capacity onemap solver school (s :: ss) k tours
        (List.cons_ne_nil _ _) hsol (Hcap tours hsol)

/-- **C7.** Every route of every plan returned by `optimize_routes` has
at most 40 students, assuming the OR-Tools capacity dimension (each
tour of a returned solution visits at most 40 students). -/
theorem optimize_routes_capacity (hd : HdFn) (onemap : OnemapFn) (solver : SolverFn)
    (dbscan : DbscanFn) (school? : Option School) (students : List Student)
    (max_buses : Nat)
    (Hcap : ∀ sch ss k tours, solver sch ss k = some tours →
      ∀ t ∈ tours, t.length ≤ 40) :
    ∀ plan, (optimize_routes hd onemap solver dbscan school? students max_buses).1 =
      Except.ok plan → ∀ r ∈ plan.routes, r.students.length ≤ 40 := by
  intro plan hplan r hr
  unfold optimize_routes at hplan
  cases school? with
  | none =>
    simp only [Except.ok.injEq] at hplan
    rw [← hplan] at hr
    simp at hr
  | some school =>
    cases students with
    | nil =>
      simp only [Except.ok.injEq] at hplan
      rw [← hplan] at hr
      simp at hr
    | cons s ss =>
      dsimp only at hplan
      cases hrec : (analyze_student_clusters hd dbscan (s :: ss) school).recommended_buses with
      | none =>
        rw [hrec] at hplan
        simp at hplan
      | some recommended =>
        rw [hrec] at hplan
        dsimp only at hplan
        by_cases hfar : 7 < (analyze_student_clusters hd dbscan (s :: ss)
              school).avg_cluster_distance.getD 0 ∧
            1 < (analyze_student_clusters hd dbscan (s :: ss) school).n_clusters.getD 0
        · rw [if_pos hfar] at hplan
          rcases hfr : (farBranch onemap solver school
              (attachIsolated hd
                ((analyze_student_clusters hd dbscan (s :: ss) school).cluster_info.getD [])
                ((analyze_student_clusters hd dbscan (s :: ss)
                  school).isolated_students.getD []))).all_routes with _ | ⟨r1, rr⟩
          · rw [hfr] at hplan
            dsimp only at hplan
            simp only [Except.ok.injEq] at hplan
            rw [← hplan] at hr
            rcases sweepPhase_spec onemap solver school (s :: ss) recommended max_buses
              ((analyze_student_clusters hd dbscan (s :: ss)
                school).visualization.getD default) with ⟨_, hroutes⟩ | ⟨c, ⟨k, hk⟩, hroutes, _⟩
            · rw [hroutes] at hr
              cases hr
            · rw [hroutes, tryBuses_routes onemap solver school (s :: ss) k c hk] at hr
              exact solve_cvrp_capacity_all onemap solver school (s :: ss) k
                (fun tours h => Hcap school (s :: ss) k tours h) r hr
          · rw [hfr] at hplan
            dsimp only at hplan
            simp only [Except.ok.injEq] at hplan
            rw [← hplan] at hr
            dsimp only at hr
            rw [← hfr] at hr
            unfold farBranch at hr
            rcases farBranch_fold_routes_mem onemap solver school _ _ r hr with
              hempty | ⟨c, _, hrc⟩
            · cases hempty
            · exact solve_cvrp_capacity_all onemap solver school c.students
                (max 1 (ceil40 c.students.length))
                (fun tours h => Hcap school c.students _ tours h) r hrc
        · rw [if_neg hfar] at hplan
          dsimp only at hplan
          simp only [Except.ok.injEq] at hplan
          rw [← hplan] at hr
          rcases sweepPhase_spec onemap solver school (s :: ss) recommended max_buses
            ((analyze_student_clusters hd dbscan (s :: ss)
              school).visualization.getD default) with ⟨_, hroutes⟩ | ⟨c, ⟨k, hk⟩, hroutes, _⟩
          · rw [hroutes] at hr
            cases hr
          · rw [hroutes, tryBuses_routes onemap solver school (s :: ss) k c hk] at hr
            exact solve_cvrp_capacity_all onemap solver school (s :: ss) k
              (fun tours h => Hcap school (s :: ss) k tours h) r hr

/-- Witness for C7: the two-cluster scenario with the sweeping solver. -/
theorem optimize_routes_capacity_witness :
    (∀ (sch : School) (ss : List Student) (k : Nat) (tours : List (List Nat)),
      solvB sch ss k = some tours → ∀ t ∈ tours, t.length ≤ 40) ∧
    (∀ plan, (optimize_routes hdLat om1 solvB db6 (some sch0) stu6 3).1 =
      Except.ok plan → ∀ r ∈ plan.routes, r.students.length ≤ 40) :=
  have hcap : ∀ (sch : School) (ss : List Student) (k : Nat) (tours : List (List Nat)),
      solvB sch ss k = some tours → ∀ t ∈ tours, t.length ≤ 40 := by
    intro sch ss k tours h
    unfold solvB at h
    split at h
    · split at h
      · cases h
        decide
      · cases h
        decide
    · cases h
  ⟨hcap, optimize_routes_capacity hdLat om1 solvB db6 (some sch0) stu6 3 hcap⟩

/-! ## C2: coverage -/

/-- Elements of a modified list are originals or the image of one. -/
theorem listModify_mem {α : Type} (f : α → α) :
    ∀ (n : Nat) (l : List α) (x : α), x ∈ listModify f n l →
      x ∈ l ∨ ∃ y ∈ l, x = f y := by
  intro n l
  induction l generalizing n with
  | nil => intro x hx; cases n <;> cases hx
  | cons c cs ih =>
    intro x hx
    cases n with
    | zero =>
      rcases List.mem_cons.mp hx with h | h
      · exact Or.inr ⟨c, List.mem_cons_self _ _, h⟩
      · exact Or.inl (List.mem_cons_of_mem _ h)
    | succ m =>
      rcases List.mem_cons.mp hx with h | h
      · exact Or.inl (h ▸ List.mem_cons_self _ _)
      · rcases ih m x h with h' | ⟨y, hy, hxy⟩
        · exact Or.inl (List.mem_cons_of_mem _ h')
        · exact Or.inr ⟨y, List.mem_cons_of_mem _ hy, hxy⟩

/-- Attachment preserves per-cluster nonemptiness of the student lists. -/
theorem attachIsolated_students_ne_nil (hd : HdFn) :
    ∀ (isolated : List Student) (cinfo : List ClusterInfo),
      (∀ c ∈ cinfo, c.students ≠ []) →
      ∀ c ∈ attachIsolated hd cinfo isolated, c.students ≠ [] := by
  intro isolated
  induction isolated with
  | nil => intro cinfo h; exact h
  | cons s rest ih =>
    intro cinfo h
    unfold attachIsolated
    rw [List.foldl_cons]
    refine ih _ ?_
    intro c hc
    rcases listModify_mem _ _ _ c hc with hmem | ⟨y, _, rfl⟩
    · exact h c hmem
    · simp

/-- Every analyzed cluster has at least one member. -/
theorem analyze_cluster_students_ne_nil (hd : HdFn) (dbscan : DbscanFn)
    (students : List Student) (school : School)
    (hlen : (dbscan students).length = students.length) :
    ∀ c ∈ (analyze_student_clusters hd dbscan students school).cluster_info.getD [],
      c.students ≠ [] := by
  by_cases htriv : students.length < 2
  · simp [analyze_student_clusters, htriv]
  · simp only [analyze_student_clusters, if_neg htriv, Option.getD_some]
    intro c hc
    rcases List.mem_map.mp hc with ⟨cid, hcid, rfl⟩
    rw [mkClusterInfo_students]
    have hcid' : cid ∈ dbscan students :=
      List.mem_dedup.mp (List.mem_filter.mp hcid).1
    have hne := zip_filter_label_ne_nil (dbscan students) students cid hcid'
      (le_of_eq hlen)
    intro hcontra
    exact hne (List.map_eq_nil_iff.mp hcontra)

/-- In a duplicate-free list a value is matched exactly once. -/
theorem nodup_filter_eq_length {α : Type} [DecidableEq α] (a : α) :
    ∀ (l : List α), l.Nodup →
      (l.filter (fun x => x = a)).length = if a ∈ l then 1 else 0 := by
  intro l
  induction l with
  | nil => intro _; simp
  | cons x xs ih =>
    intro hnd
    rcases List.nodup_cons.mp hnd with ⟨hx, hxs⟩
    rw [List.filter_cons]
    by_cases hxa : x = a
    · subst hxa
      rw [if_pos (by simp), List.length_cons, ih hxs, if_neg hx,
        if_pos (List.mem_cons_self _ _)]
    · rw [if_neg (by simp [hxa]), ih hxs]
      by_cases ha : a ∈ xs
      · rw [if_pos ha, if_pos (List.mem_cons_of_mem _ ha)]
      · rw [if_neg ha, if_neg (by
          simp only [List.mem_cons, not_or]
          exact ⟨fun h => hxa h.symm, ha⟩)]

/-- The analyzer's cluster count equals the number of per-cluster
records it produces. -/
theorem analyze_n_clusters_eq (hd : HdFn) (dbscan : DbscanFn)
    (students : List Student) (school : School)
    (htriv : ¬ students.length < 2) :
    (analyze_student_clusters hd dbscan students school).n_clusters.getD 0 =
      ((analyze_student_clusters hd dbscan students school).cluster_info.getD []).length := by
  simp only [analyze_student_clusters, if_neg htriv, Option.getD_some, List.length_map]
  have hnd := List.nodup_dedup (dbscan students)
  have hsplit := (List.filter_append_perm
    (fun x : Int => decide (x = -1)) ((dbscan students).dedup)).length_eq
  rw [List.length_append] at hsplit
  have hone := nodup_filter_eq_length (-1 : Int) ((dbscan students).dedup) hnd
  have hmem : ((-1 : Int) ∈ (dbscan students).dedup) ↔ (-1 : Int) ∈ dbscan students :=
    List.mem_dedup
  have hfilter : ((dbscan students).dedup.filter (fun x : Int => !decide (x = -1))) =
      ((dbscan students).dedup.filter (fun l => l ≠ -1)) := by
    refine List.filter_congr ?_
    intro x _
    simp
  rw [hfilter] at hsplit
  by_cases hm : (-1 : Int) ∈ dbscan students
  · rw [if_pos hm]
    rw [if_pos (hmem.mpr hm)] at hone
    omega
  · rw [if_neg hm]
    rw [if_neg (fun h => hm (hmem.mp h))] at hone
    omega

/-- **C2 (amended).** If every CVRP solve invoked returns a solution
(and OR-Tools solutions visit every student index exactly once), then
every successful plan's routes carry, up to permutation, exactly the
input students — in particular each student appears in exactly one
route.  (The restriction is forced: when an individual per-cluster
solve fails while another succeeds, the FAR_APART branch silently drops
the failed cluster's students, see the counterexample.) -/
theorem optimize_routes_coverage (hd : HdFn) (onemap : OnemapFn) (solver : SolverFn)
    (dbscan : DbscanFn) (school? : Option School) (students : List Student)
    (max_buses : Nat)
    (Hvalid : ∀ sch ss k tours, solver sch ss k = some tours →
      tours.flatten.Perm (List.range ss.length))
    (Htotal : ∀ sch ss k, ∃ tours, solver sch ss k = some tours)
    (Hdb : (dbscan students).length = students.length) :
    ∀ plan, (optimize_routes hd onemap solver dbscan school? students max_buses).1 =
      Except.ok plan → plan.error = none →
      (plan.routes.flatMap (·.students)).Perm students := by
  intro plan hplan herr
  unfold optimize_routes at hplan
  cases school? with
  | none =>
    simp only [Except.ok.injEq] at hplan
    rw [← hplan] at herr
    simp at herr
  | some school =>
    cases students with
    | nil =>
      simp only [Except.ok.injEq] at hplan
      rw [← hplan] at herr
      simp at herr
    | cons s ss =>
      dsimp only at hplan
      cases hrec : (analyze_student_clusters hd dbscan (s :: ss) school).recommended_buses with
      | none =>
        rw [hrec] at hplan
        simp at hplan
      | some recommended =>
        rw [hrec] at hplan
        dsimp only at hplan
        by_cases hfar : 7 < (analyze_student_clusters hd dbscan (s :: ss)
              school).avg_cluster_distance.getD 0 ∧
            1 < (analyze_student_clusters hd dbscan (s :: ss) school).n_clusters.getD 0
        · have htriv : ¬ (s :: ss).length < 2 := by
            intro hlt
            rcases hfar with ⟨_, h2⟩
            have hnone : (analyze_student_clusters hd dbscan (s :: ss)
                school).n_clusters = none := by
              unfold analyze_student_clusters
              rw [if_pos hlt]
            rw [hnone] at h2
            simp at h2
          have hclne := analyze_cluster_students_ne_nil hd dbscan (s :: ss) school Hdb
          have hcine : (analyze_student_clusters hd dbscan (s :: ss)
              school).cluster_info.getD [] ≠ [] := by
            intro hcontra
            rcases hfar with ⟨_, h2⟩
            rw [analyze_n_clusters_eq hd dbscan (s :: ss) school htriv, hcontra] at h2
            simp at h2
          have hanne := attachIsolated_students_ne_nil hd
            ((analyze_student_clusters hd dbscan (s :: ss) school).isolated_students.getD [])
            ((analyze_student_clusters hd dbscan (s :: ss) school).cluster_info.getD [])
            hclne
          have hcov := farBranch_fold_coverage onemap solver school Hvalid Htotal
            (attachIsolated hd
              ((analyze_student_clusters hd dbscan (s :: ss) school).cluster_info.getD [])
              ((analyze_student_clusters hd dbscan (s :: ss)
                school).isolated_students.getD []))
            {} hanne
          have hattach := attachIsolated_flatMap_perm hd
            ((analyze_student_clusters hd dbscan (s :: ss) school).isolated_students.getD [])
            ((analyze_student_clusters hd dbscan (s :: ss) school).cluster_info.getD [])
            hcine
          have hpart := analyze_partition hd dbscan (s :: ss) school Hdb htriv
          have hfull : ((farBranch onemap solver school
              (attachIsolated hd
                ((analyze_student_clusters hd dbscan (s :: ss) school).cluster_info.getD [])
                ((analyze_student_clusters hd dbscan (s :: ss)
                  school).isolated_students.getD []))).all_routes.flatMap
              (·.students)).Perm (s :: ss) := by
            unfold farBranch
            refine hcov.trans ?_
            refine List.Perm.trans ?_ (hattach.trans hpart)
            simp
          rw [if_pos hfar] at hplan
          rcases hfr : (farBranch onemap solver school
              (attachIsolated hd
                ((analyze_student_clusters hd dbscan (s :: ss) school).cluster_info.getD [])
                ((analyze_student_clusters hd dbscan (s :: ss)
                  school).isolated_students.getD []))).all_routes with _ | ⟨r1, rr⟩
          · rw [hfr] at hfull
            simp only [List.flatMap_nil] at hfull
            cases hfull.nil_eq
          · rw [hfr] at hplan
            dsimp only at hplan
            simp only [Except.ok.injEq] at hplan
            rw [← hplan]
            dsimp only
            rw [← hfr]
            exact hfull
        · rw [if_neg hfar] at hplan
          dsimp only at hplan
          simp only [Except.ok.injEq] at hplan
          rcases sweepPhase_spec onemap solver school (s :: ss) recommended max_buses
            ((analyze_student_clusters hd dbscan (s :: ss)
              school).visualization.getD default) with ⟨herr2, _⟩ | ⟨c, ⟨k, hk⟩, hroutes, _⟩
          · rw [← hplan] at herr
            rw [herr2] at herr
            cases herr
          · rw [← hplan]
            rw [hroutes, tryBuses_routes onemap solver school (s :: ss) k c hk]
            obtain ⟨tours, hsol⟩ := Htotal school (s :: ss) k
            exact solve_cvrp_coverage onemap solver school (s :: ss) k tours
              (List.cons_ne_nil _ _) hsol (Hvalid _ _ _ _ hsol)

/-- Witness for the amended C2: the two-cluster scenario with a solver
that always returns one all-students tour; the FAR_APART branch is
taken and the plan covers every student. -/
theorem optimize_routes_coverage_witness :
    ((∀ (sch : School) (ss : List Student) (k : Nat) (tours : List (List Nat)),
        solvT sch ss k = some tours → tours.flatten.Perm (List.range ss.length)) ∧
      (∀ (sch : School) (ss : List Student) (k : Nat),
        ∃ tours, solvT sch ss k = some tours) ∧
      (db6 stu6).length = stu6.length) ∧
    (∀ plan, (optimize_routes hdLat om1 solvT db6 (some sch0) stu6 3).1 =
      Except.ok plan → plan.error = none →
      (plan.routes.flatMap (·.students)).Perm stu6) :=
  have h1 : ∀ (sch : School) (ss : List Student) (k : Nat) (tours : List (List Nat)),
      solvT sch ss k = some tours → tours.flatten.Perm (List.range ss.length) := by
    intro sch ss k tours h
    cases h
    simp
  have h2 : ∀ (sch : School) (ss : List Student) (k : Nat),
      ∃ tours, solvT sch ss k = some tours := fun _ _ _ => ⟨_, rfl⟩
  have h3 : (db6 stu6).length = stu6.length := by decide
  ⟨⟨h1, h2, h3⟩,
    optimize_routes_coverage hdLat om1 solvT db6 (some sch0) stu6 3 h1 h2 h3⟩

/-- **C2, counterexample to the claim as stated.**  With the two
far-apart clusters, a solver that solves cluster A (students 1–3) but
times out on cluster B (students 4–6), the FAR_APART branch returns a
*successful* plan (`error` absent) whose routes carry only the 3
students of cluster A, not the 6 input students: the union of the
routes' students is not the input set. -/
theorem optimize_routes_coverage_counterexample :
    ((optimize_routes hdLat om1 solvA db6 (some sch0) stu6 3).1.toOption.map
      (fun p => (p.error, (p.routes.flatMap (·.students)).length))) =
      some (none, 3) ∧
    stu6.length = 6 := by
  constructor
  · norm_num [optimize_routes, analyze_student_clusters, mkClusterInfo, pairsOf,
      listMean, ceil40, attachIsolated, nearestClusterIdx, farBranch, farStep,
      solve_cvrp, buildRoute, routeSegments, segsAux,
      get_real_route_geometry_for_segments, round2, round1, stu6, sch0, hdLat,
      db6, om1, solvA, mkStu, defaultStudent, List.dedup, List.count,
      listModify, List.enum, List.enumFrom, List.flatten, Except.toOption,
      max_def]
  · rfl

/-! ## C4: adapter usage and per-route accounting -/

/-- The calls a route build makes are exactly its segments' endpoints
(enrichment preserves each segment's endpoints). -/
theorem buildRoute_calls (onemap : OnemapFn) (school : School)
    (students : List Student) (t : List Nat) :
    (buildRoute onemap school students t).calls =
      (buildRoute onemap school students t).route.segments.map
        (fun sg => (sg.fromLat, sg.fromLng, sg.toLat, sg.toLng)) := by
  unfold buildRoute get_real_route_geometry_for_segments
  dsimp only
  rw [List.map_map]
  rfl

/-- **C4 (amended).**  Each CVRP solve that returns a solution invokes
the routing-client adapter itself, once per segment of every extracted
route — so the adapter runs for every candidate fleet size tried, not
only during the enrichment of a single chosen plan — and each per-route
distance and time is computed from the adapter's returned values:
per segment the adapter supplies km and seconds, route distance is the
(rounded) sum of segment km, and route time is the (rounded) sum of
segment seconds plus a 60 s pickup dwell per student visited. -/
theorem solve_cvrp_adapter_accounting (onemap : OnemapFn) (solver : SolverFn)
    (school : School) (students : List Student) (k : Nat) (tours : List (List Nat))
    (hne : students ≠ []) (hsol : solver school students k = some tours) :
    (solve_cvrp onemap solver school students k).2 =
      (solve_cvrp onemap solver school students k).1.routes.flatMap
        (fun r => r.segments.map (fun sg => (sg.fromLat, sg.fromLng, sg.toLat, sg.toLng))) ∧
    ∀ r ∈ (solve_cvrp onemap solver school students k).1.routes,
      r.distance_km = round2 ((r.segments.map (·.distance)).sum) ∧
      r.time_seconds = round ((r.segments.map (·.time)).sum + (r.student_count : ℚ) * 60) ∧
      ∀ sg ∈ r.segments,
        sg.distance = (onemap sg.fromLat sg.fromLng sg.toLat sg.toLng).1 ∧
        sg.time = (onemap sg.fromLat sg.fromLng sg.toLat sg.toLng).2.1 := by
  obtain ⟨s, ss, rfl⟩ := List.exists_cons_of_ne_nil hne
  constructor
  · have hlog : (solve_cvrp onemap solver school (s :: ss) k).2 =
        ((tours.filter (fun t => !t.isEmpty)).map
          (buildRoute onemap school (s :: ss))).flatMap (·.calls) := by
      simp [solve_cvrp, hsol, List.flatMap_def]
    rw [hlog, (solve_cvrp_routes onemap solver school (s :: ss) k tours
      (List.cons_ne_nil _ _) hsol).2]
    rw [List.flatMap_map, List.flatMap_map]
    rw [funext (buildRoute_calls onemap school (s :: ss))]
  · intro r hr
    rw [(solve_cvrp_routes onemap solver school (s :: ss) k tours
      (List.cons_ne_nil _ _) hsol).2] at hr
    rcases List.mem_map.mp hr with ⟨t, _, rfl⟩
    refine ⟨rfl, rfl, ?_⟩
    intro sg hsg
    have hsegs : (buildRoute onemap school (s :: ss) t).route.segments =
        (get_real_route_geometry_for_segments onemap
          (routeSegments school (s :: ss) t)).1 := rfl
    rw [hsegs] at hsg
    unfold get_real_route_geometry_for_segments at hsg
    dsimp only at hsg
    rcases List.mem_map.mp hsg with ⟨s0, _, rfl⟩
    constructor <;> rfl

/-- Witness for the amended C4 at a concrete solve. -/
theorem solve_cvrp_adapter_accounting_witness :
    (stu6 ≠ [] ∧ solvT sch0 stu6 1 = some [List.range stu6.length]) ∧
    ((solve_cvrp om1 solvT sch0 stu6 1).2 =
      (solve_cvrp om1 solvT sch0 stu6 1).1.routes.flatMap
        (fun r => r.segments.map (fun sg => (sg.fromLat, sg.fromLng, sg.toLat, sg.toLng))) ∧
    ∀ r ∈ (solve_cvrp om1 solvT sch0 stu6 1).1.routes,
      r.distance_km = round2 ((r.segments.map (·.distance)).sum) ∧
      r.time_seconds = round ((r.segments.map (·.time)).sum + (r.student_count : ℚ) * 60) ∧
      ∀ sg ∈ r.segments,
        sg.distance = (om1 sg.fromLat sg.fromLng sg.toLat sg.toLng).1 ∧
        sg.time = (om1 sg.fromLat sg.fromLng sg.toLat sg.toLng).2.1) :=
  ⟨⟨by decide, rfl⟩,
    solve_cvrp_adapter_accounting om1 solvT sch0 stu6 1 [List.range stu6.length]
      (by decide) rfl⟩

set_option maxHeartbeats 2000000 in
/-- **C4, counterexample to the claim as stated.**  In the two-cluster
scenario with the sweeping solver, the plan finally chosen is the
two-bus candidate with 8 segments, yet 15 adapter calls were recorded —
the 7 extra calls enriched the rejected one-bus candidate inside its
own `solve_cvrp`, so the adapter is not invoked only during final
enrichment of the single chosen plan.  Moreover the first route
(cluster A's tour `[0, 1, 2]`) reports 2 km — the rounded sum of the
adapter's per-segment 0.5 km — while the distance-matrix accounting of
the same tour gives 0.576 km, so per-route distance is not computed
from the matrix. -/
theorem adapter_inside_solver_counterexample :
    (optimize_routes hdLat om1 solvB db6 (some sch0) stu6 3).2.length = 15 ∧
    ((optimize_routes hdLat om1 solvB db6 (some sch0) stu6 3).1.toOption.map
      (fun p => ((p.routes.flatMap (·.segments)).length,
        p.routes.map (·.distance_km)))) = some (8, [2, 2]) ∧
    matrixRouteDistance hdLat sch0 stu6 [0, 1, 2] = 72 / 125 ∧
    (2 : ℚ) ≠ 72 / 125 := by
  refine ⟨?_, ?_, ?_, by norm_num⟩
  · norm_num [optimize_routes, analyze_student_clusters, mkClusterInfo, pairsOf,
      listMean, ceil40, attachIsolated, nearestClusterIdx, farBranch, farStep,
      solve_cvrp, buildRoute, routeSegments, segsAux,
      get_real_route_geometry_for_segments, round2, round1, stu6, sch0, hdLat,
      db6, om1, solvB, mkStu, defaultStudent, List.dedup, List.count,
      listModify, List.enum, List.enumFrom, List.flatten, Except.toOption,
      max_def, sweepPhase, tryBuses, pickBest, listMinQ, argminFirst,
      List.range', List.reduceOption, List.filterMap_cons, List.filterMap_nil,
      id_eq, Option.getD, List.mergeSort, List.merge, round_eq]
  · norm_num [optimize_routes, analyze_student_clusters, mkClusterInfo, pairsOf,
      listMean, ceil40, attachIsolated, nearestClusterIdx, farBranch, farStep,
      solve_cvrp, buildRoute, routeSegments, segsAux,
      get_real_route_geometry_for_segments, round2, round1, stu6, sch0, hdLat,
      db6, om1, solvB, mkStu, defaultStudent, List.dedup, List.count,
      listModify, List.enum, List.enumFrom, List.flatten, Except.toOption,
      max_def, sweepPhase, tryBuses, pickBest, listMinQ, argminFirst,
      List.range', List.reduceOption, List.filterMap_cons, List.filterMap_nil,
      id_eq, Option.getD, List.mergeSort, List.merge, round_eq]
  · norm_num [matrixRouteDistance, build_distance_matrix_fast, pyInt,
      estimate_travel_time, stu6, sch0, hdLat, mkStu, defaultStudent]

/-! ## C9: silent fall-through of the FAR_APART branch -/

/-- If every per-cluster solve fails, the far-branch fold collects
nothing (no routes, no calls, zero totals). -/
theorem farBranch_fail (onemap : OnemapFn) (solver : SolverFn) (school : School) :
    ∀ (cinfo : List ClusterInfo) (acc : FarAcc),
      (∀ c ∈ cinfo, solver school c.students (max 1 (ceil40 c.students.length)) = none) →
      cinfo.foldl (farStep onemap solver school) acc = acc := by
  intro cinfo
  induction cinfo with
  | nil => intro acc _; rfl
  | cons c cs ih =>
    intro acc hfail
    rw [List.foldl_cons]
    have hstep : farStep onemap solver school acc c = acc := by
      unfold farStep
      dsimp only
      have hsol := hfail c (List.mem_cons_self _ _)
      match hms : c.students with
      | [] =>
        simp [solve_cvrp]
      | s :: ss =>
        rw [hms] at hsol
        simp only [List.length_cons] at hsol
        simp [solve_cvrp, hsol]
    rw [hstep]
    exact ih acc (fun x hx => hfail x (List.mem_cons_of_mem _ hx))

/-- **C9.**  In the FAR_APART branch, when no per-cluster solve
produces any route, `optimize_routes` does not return a NO_SOLUTION
error at that point: it silently falls through to the fleet-size sweep
over the full student set, returning exactly the sweep's plan (and only
the sweep's adapter calls). -/
theorem optimize_routes_far_fallthrough (hd : HdFn) (onemap : OnemapFn)
    (solver : SolverFn) (dbscan : DbscanFn) (school : School)
    (students : List Student) (max_buses recommended : Nat)
    (hs : students ≠ [])
    (hrec : (analyze_student_clusters hd dbscan students school).recommended_buses =
      some recommended)
    (hfar : 7 < (analyze_student_clusters hd dbscan students
        school).avg_cluster_distance.getD 0 ∧
      1 < (analyze_student_clusters hd dbscan students school).n_clusters.getD 0)
    (hfail : ∀ c ∈ attachIsolated hd
        ((analyze_student_clusters hd dbscan students school).cluster_info.getD [])
        ((analyze_student_clusters hd dbscan students school).isolated_students.getD []),
      solver school c.students (max 1 (ceil40 c.students.length)) = none) :
    optimize_routes hd onemap solver dbscan (some school) students max_buses =
      (Except.ok (sweepPhase onemap solver school students recommended max_buses
        ((analyze_student_clusters hd dbscan students school).visualization.getD
          default)).1,
       (sweepPhase onemap solver school students recommended max_buses
        ((analyze_student_clusters hd dbscan students school).visualization.getD
          default)).2) := by
  obtain ⟨s, ss, rfl⟩ := List.exists_cons_of_ne_nil hs
  unfold optimize_routes
  dsimp only
  rw [hrec]
  dsimp only
  rw [if_pos hfar]
  have hfb : farBranch onemap solver school
      (attachIsolated hd
        ((analyze_student_clusters hd dbscan (s :: ss) school).cluster_info.getD [])
        ((analyze_student_clusters hd dbscan (s :: ss)
          school).isolated_students.getD [])) = {} :=
    farBranch_fail onemap solver school _ {} hfail
  rw [hfb]
  rfl

set_option maxHeartbeats 1000000 in
/-- Witness for C9: both cluster solves time out, and the orchestrator
hands over to the sweep (which here still produces a plan, cf. the
scenario's sweep outcome in the C4 analysis). -/
theorem optimize_routes_far_fallthrough_witness :
    (stu6 ≠ [] ∧
      (analyze_student_clusters hdLat db6 stu6 sch0).recommended_buses = some 2 ∧
      (7 < (analyze_student_clusters hdLat db6 stu6 sch0).avg_cluster_distance.getD 0 ∧
        1 < (analyze_student_clusters hdLat db6 stu6 sch0).n_clusters.getD 0) ∧
      (∀ c ∈ attachIsolated hdLat
          ((analyze_student_clusters hdLat db6 stu6 sch0).cluster_info.getD [])
          ((analyze_student_clusters hdLat db6 stu6 sch0).isolated_students.getD []),
        solvB sch0 c.students (max 1 (ceil40 c.students.length)) = none)) ∧
    optimize_routes hdLat om1 solvB db6 (some sch0) stu6 3 =
      (Except.ok (sweepPhase om1 solvB sch0 stu6 2 3
        ((analyze_student_clusters hdLat db6 stu6 sch0).visualization.getD
          default)).1,
       (sweepPhase om1 solvB sch0 stu6 2 3
        ((analyze_student_clusters hdLat db6 stu6 sch0).visualization.getD
          default)).2) :=
  have h1 : stu6 ≠ [] := by decide
  have h2 : (analyze_student_clusters hdLat db6 stu6 sch0).recommended_buses = some 2 := by
    norm_num [analyze_student_clusters, mkClusterInfo, pairsOf, listMean, ceil40,
      stu6, sch0, hdLat, db6, mkStu, defaultStudent, List.dedup, List.count,
      List.flatten, max_def]
  have h3 : 7 < (analyze_student_clusters hdLat db6 stu6 sch0).avg_cluster_distance.getD 0 ∧
      1 < (analyze_student_clusters hdLat db6 stu6 sch0).n_clusters.getD 0 := by
    constructor <;>
      norm_num [analyze_student_clusters, mkClusterInfo, pairsOf, listMean, ceil40,
        stu6, sch0, hdLat, db6, mkStu, defaultStudent, List.dedup, List.count,
        List.flatten, max_def]
  have h4 : ∀ c ∈ attachIsolated hdLat
      ((analyze_student_clusters hdLat db6 stu6 sch0).cluster_info.getD [])
      ((analyze_student_clusters hdLat db6 stu6 sch0).isolated_students.getD []),
      solvB sch0 c.students (max 1 (ceil40 c.students.length)) = none := by
    norm_num [analyze_student_clusters, mkClusterInfo, pairsOf, listMean, ceil40,
      attachIsolated, stu6, sch0, hdLat, db6, solvB, mkStu, defaultStudent,
      List.dedup, List.count, List.flatten, max_def, List.forall_mem_cons]
  ⟨⟨h1, h2, h3, h4⟩,
    optimize_routes_far_fallthrough hdLat om1 solvB db6 sch0 stu6 3 2 h1 h2 h3 h4⟩
